import Mathlib

/-!
Verification of the Karlik robot program model and execution engine.

This file is a shallow embedding, in Lean 4, of the core of the Karlik
repository: the direction type (src/dir.c), the program model and its
persistence (src/prog.c, src/prog.h), the robot continuation stack
(src/rstack.c, src/rstack.h), the robot execution engine (src/robot.c,
src/robot.h) and the robots collection (src/robots.c, src/robots.h).

Modelling conventions:
- C linked lists (HelenOS-style list_t) become Lean lists.  The robots
  collection keeps its two orderings as an id-keyed arena list (the
  unordered list, in append order) plus a list of ids (the draw order).
- Pointers to procedures (prog_proc_t *) become indices into the module's
  procedure list; pointers to statements become indices into the top-level
  body of the procedure holding them (robot execution only ever places the
  cursor in a top-level body, and the continuation stack is persisted via
  exactly this linear index, see prog_proc_get_stmt_index).
- Machine integers: tile coordinates are C int, modelled as Int; counts
  and enum payloads are modelled as Nat.  No arithmetic in the modelled
  code can overflow in any scenario considered here.
- Files become token lists (a token is a decimal number, an identifier
  line, or a single character); fprintf emits tokens and fscanf consumes
  them.  Fallible loaders return Except over the C errno codes.
- Allocation failure (ENOMEM) paths are not modelled: allocation is
  assumed to succeed.
- The recursive statement loader takes explicit fuel (the C code recurses
  on the host stack); all results proved about loading hold for every
  sufficiently large fuel.
-/

/-- Errno code EIO, returned by the C code on any decode failure. -/
def EIOerr : Nat := 5

/-- Errno code ENOMEM (allocation failure; not otherwise modelled). -/
def ENOMEM : Nat := 12

/-- Errno code EBUSY, returned by robot_run_proc on a busy or stopped robot. -/
def EBUSY : Nat := 16

/-- Errno code EEXIST, returned by robots_add on an occupied tile. -/
def EEXIST : Nat := 17

/-- Errno code EINVAL, returned by robot_step when there is nothing to run. -/
def EINVAL : Nat := 22

/-- Errno code ENOTSUP, returned by robot_step on If/Repeat/Recurse. -/
def ENOTSUP : Nat := 95

/-- Map tile type (map.h, enum map_tile_t). -/
inductive map_tile_t : Type where
  | mapt_none
  | mapt_wall
  | mapt_wtag
  | mapt_gtag
  | mapt_btag
  | mapt_robot
deriving DecidableEq, Repr

open map_tile_t

/-- Modelled from the spec: map_tile_tag is declared by the abstract map
interface ("query ... tag-ness of a tile") but its body is not among the
provided sources.  Per the glossary, a tag is a colored marker
(white/grey/black). -/
def map_tile_tag (t : map_tile_t) : Bool :=
  t = mapt_wtag ∨ t = mapt_gtag ∨ t = mapt_btag

/-- Modelled from the spec: map_tile_walkable is declared by the abstract
map interface ("query walkability ... of a tile") but its body is not among
the provided sources.  Per the spec, moving onto a wall fails with hit-wall,
tags lie on otherwise empty (walkable) tiles; the remaining tile kinds
(wall, the map-editor robot marker) are not walkable. -/
def map_tile_walkable (t : map_tile_t) : Bool :=
  t = mapt_none ∨ map_tile_tag t

/-- City map (map.h, struct map_t), reduced to the abstract tile store the
engine consumes: a total assignment of tiles to integer coordinates.
Rendering geometry and callbacks are out of scope. -/
structure map_t : Type where
  tiles : Int → Int → map_tile_t

/-- Modelled from the spec: get tile contents ("get/set tile contents" of
the abstract map interface; the body of map_get is not among the provided
sources). -/
def map_get (m : map_t) (x y : Int) : map_tile_t := m.tiles x y

/-- Modelled from the spec: set tile contents (the body of map_set is not
among the provided sources). -/
def map_set (m : map_t) (x y : Int) (t : map_tile_t) : map_t :=
  ⟨fun x' y' => if x' = x ∧ y' = y then t else m.tiles x' y'⟩

/-- Cardinal direction (dir.c; the header dir.h is not among the provided
sources, but dir.c fixes the counter-clockwise successor order
east, north, west, south, and robots.c uses dir_south as the default
facing of a new robot). -/
inductive dir_t : Type where
  | dir_east
  | dir_north
  | dir_west
  | dir_south
deriving DecidableEq, Repr

open dir_t

/-- Next direction counter-clockwise (dir.c, dir_next_ccw): successor in
the enum order, wrapping from south back to east. -/
def dir_next_ccw : dir_t → dir_t
  | dir_east => dir_north
  | dir_north => dir_west
  | dir_west => dir_south
  | dir_south => dir_east

/-- Get X and Y offset for cardinal direction (dir.c, dir_get_off). -/
def dir_get_off : dir_t → Int × Int
  | dir_east => (1, 0)
  | dir_north => (0, -1)
  | dir_west => (-1, 0)
  | dir_south => (0, 1)

/-- Numeric value of a direction (dir.h enum order, used by robot_save's
"%d" of robot->dir). -/
def dir_to_int : dir_t → Int
  | dir_east => 0
  | dir_north => 1
  | dir_west => 2
  | dir_south => 3

/-- Direction from its saved numeric value (robot_load casts the loaded
int back to dir_t; values outside 0..3 never arise from robot_save and are
mapped to dir_east as a modelling default). -/
def dir_of_int (n : Int) : dir_t :=
  if n = 1 then dir_north
  else if n = 2 then dir_west
  else if n = 3 then dir_south
  else dir_east

/-- Robot error (robot.h, enum robot_error_t). -/
inductive robot_error_t : Type where
  | errt_none
  | errt_hit_wall
  | errt_already_tag
  | errt_no_tag
deriving DecidableEq, Repr

open robot_error_t

/-- Number of robot error codes (robot.h, errt_limit = errt_no_tag + 1). -/
def errt_limit : Nat := 4

/-- Numeric value of a robot error (robot.h enum order). -/
def errt_to_nat : robot_error_t → Nat
  | errt_none => 0
  | errt_hit_wall => 1
  | errt_already_tag => 2
  | errt_no_tag => 3

/-- Robot error from its numeric value (robot_load assigns the loaded
unsigned, already checked < errt_limit, to robot->error). -/
def errt_of_nat (n : Nat) : robot_error_t :=
  if n = 1 then errt_hit_wall
  else if n = 2 then errt_already_tag
  else if n = 3 then errt_no_tag
  else errt_none

/-- Intrinsic type (prog.h, enum prog_intr_type_t). -/
inductive prog_intr_type_t : Type where
  | progin_turn_left
  | progin_move
  | progin_put_white
  | progin_put_grey
  | progin_put_black
  | progin_pick_up
deriving DecidableEq, Repr

open prog_intr_type_t

/-- Numeric value of an intrinsic type (prog.h: 0..5). -/
def progin_to_nat : prog_intr_type_t → Nat
  | progin_turn_left => 0
  | progin_move => 1
  | progin_put_white => 2
  | progin_put_grey => 3
  | progin_put_black => 4
  | progin_pick_up => 5

/-- Intrinsic type from its numeric value (prog_stmt_intrinsic_load checks
the value is at most progin_pick_up = 5 before the cast). -/
def progin_of_nat (n : Nat) : prog_intr_type_t :=
  if n = 1 then progin_move
  else if n = 2 then progin_put_white
  else if n = 3 then progin_put_grey
  else if n = 4 then progin_put_black
  else if n = 5 then progin_pick_up
  else progin_turn_left

/-- Program condition type (prog.h, enum prog_ctype_t, values 0..8). -/
inductive prog_ctype_t : Type where
  | progct_wall
  | progct_wtag
  | progct_gtag
  | progct_btag
  | progct_tag
  | progct_east
  | progct_north
  | progct_west
  | progct_south
deriving DecidableEq, Repr

open prog_ctype_t

/-- Numeric value of a condition type (prog.h enum order). -/
def progct_to_nat : prog_ctype_t → Nat
  | progct_wall => 0
  | progct_wtag => 1
  | progct_gtag => 2
  | progct_btag => 3
  | progct_tag => 4
  | progct_east => 5
  | progct_north => 6
  | progct_west => 7
  | progct_south => 8

/-- Condition type from its numeric value (prog_cond_load checks the value
is at most progct_south = 8 before the cast). -/
def progct_of_nat (n : Nat) : prog_ctype_t :=
  if n = 1 then progct_wtag
  else if n = 2 then progct_gtag
  else if n = 3 then progct_btag
  else if n = 4 then progct_tag
  else if n = 5 then progct_east
  else if n = 6 then progct_north
  else if n = 7 then progct_west
  else if n = 8 then progct_south
  else progct_wall

/-- Program condition (prog.h, struct prog_cond_t): negation flag and
condition type.  The C field "not" is named cnot here. -/
structure prog_cond_t : Type where
  cnot : Bool
  ctype : prog_ctype_t
deriving DecidableEq, Repr

/-- Program statement (prog.h, prog_stmt_t and its union).  A block
(prog_block_t) is the list of its statements.  The C pointer
s.scall.proc becomes the index of the callee in the module's procedure
list.  The C pair (have_scond, scond) and likewise (have_econd, econd)
and the optional false branch become Option fields.  The non-owning
back-reference stmt->block is represented implicitly by the position of
the statement in its containing list. -/
inductive prog_stmt_t : Type where
  | sintr (itype : prog_intr_type_t)
  | scall (proc : Nat)
  | sif (cond : prog_cond_t) (btrue : List prog_stmt_t)
      (bfalse : Option (List prog_stmt_t))
  | srepeat (repcnt : Nat) (scond : Option prog_cond_t)
      (body : List prog_stmt_t) (econd : Option prog_cond_t)
  | srecurse
deriving Repr

open prog_stmt_t

/-- Numeric statement type tag (prog.h, enum prog_stmt_type_t: 0..4). -/
def prog_stmt_stype : prog_stmt_t → Nat
  | sintr _ => 0
  | scall _ => 1
  | sif _ _ _ => 2
  | srepeat _ _ _ _ => 3
  | srecurse => 4

/-- Program procedure (prog.h, struct prog_proc_t): identifier and body
block.  The back-reference to the containing module is implicit. -/
structure prog_proc_t : Type where
  ident : String
  body : List prog_stmt_t
deriving Repr

/-- Program module (prog.h, struct prog_module_t): its procedures, in
list order. -/
structure prog_module_t : Type where
  procs : List prog_proc_t
deriving Repr

/-- Procedure identifier length (prog.h, prog_proc_id_len = 8). -/
def prog_proc_id_len : Nat := 8

/-- Append procedure to module (prog.c, prog_module_append). -/
def prog_module_append (mod : prog_module_t) (proc : prog_proc_t) :
    prog_module_t :=
  ⟨mod.procs ++ [proc]⟩

/-- Linear scan of a procedure list for an identifier, returning the index
of the first match (prog.c, prog_module_proc_by_ident walks the list with
strcmp and returns the first matching procedure; a pointer result becomes
an index here). -/
def proc_list_by_ident : List prog_proc_t → String → Option Nat
  | [], _ => none
  | p :: rest, ident =>
      if p.ident = ident then some 0
      else (proc_list_by_ident rest ident).map (· + 1)

/-- Find procedure by identifier (prog.c, prog_module_proc_by_ident). -/
def prog_module_proc_by_ident (mod : prog_module_t) (ident : String) :
    Option Nat :=
  proc_list_by_ident mod.procs ident

/-- Identifier of the procedure at an index (dereference of a
prog_proc_t pointer's ident field; the empty string stands for the
never-exercised dangling case). -/
def prog_ident_of (mod : prog_module_t) (idx : Nat) : String :=
  match mod.procs.get? idx with
  | some p => p.ident
  | none => ""

/-- Statement of a module at a (procedure index, top-level statement
index) pair: dereference of the robot execution cursor. -/
def stmt_at (mod : prog_module_t) (p s : Nat) : Option prog_stmt_t :=
  match mod.procs.get? p with
  | some proc => proc.body.get? s
  | none => none

/-- Robot (robot.h, struct robot_t).  cur_proc/cur_stmt are the execution
cursor (indices, see the module conventions); rstack is the owned
continuation stack of (caller procedure index, caller statement index)
entries in push order, the last entry being the top (rstack.c pushes with
list_append and pops from list_last). -/
structure robot_t : Type where
  x : Int
  y : Int
  dir : dir_t
  cur_proc : Option Nat
  cur_stmt : Option Nat
  rstack : List (Nat × Nat)
  error : robot_error_t
deriving DecidableEq, Repr

/-- Create new robot (robot.c, robot_create): position, facing, the given
stack; calloc zeroes the cursor and the error. -/
def robot_create (x y : Int) (dir : dir_t) (rstack : List (Nat × Nat)) :
    robot_t :=
  ⟨x, y, dir, none, none, rstack, errt_none⟩

/-- Robots collection (robots.h, struct robots_t): the unordered robot
list (append order) keyed by an id standing for the C object identity, the
display order as a list of ids, and the next fresh id.  The prog and map
pointers of the C struct live in karlik_state below. -/
structure robots_t : Type where
  robots : List (Nat × robot_t)
  dorder : List Nat
  nextId : Nat
deriving DecidableEq, Repr

/-- Create robots (robots.c, robots_create): both lists empty. -/
def robots_empty : robots_t := ⟨[], [], 0⟩

/-- Robot stored under an id (dereference of a robot_t pointer). -/
def robots_lookup (rbts : robots_t) (rid : Nat) : Option robot_t :=
  (rbts.robots.find? (fun pr => pr.1 = rid)).map (·.2)

/-- Replace the robot stored under an id (mutation of the pointed-to
robot_t). -/
def robots_update (rbts : robots_t) (rid : Nat) (r : robot_t) : robots_t :=
  { rbts with
    robots := rbts.robots.map (fun pr => if pr.1 = rid then (pr.1, r) else pr) }

/-- Y coordinate of the robot with a given id (dereference robot->y; 0 for
a dangling id, which never arises). -/
def robots_yof (rbts : robots_t) (rid : Nat) : Int :=
  match robots_lookup rbts rid with
  | some r => r.y
  | none => 0

/-- Get robot by tile coordinates (robots.c, robots_get): linear scan of
the unordered list, first robot with matching coordinates; the pointer
result becomes the robot's id. -/
def robots_get (rbts : robots_t) (x y : Int) : Option Nat :=
  (rbts.robots.find? (fun pr => pr.2.x = x ∧ pr.2.y = y)).map (·.1)

/-- Display-order insertion scan of robots_add_robot (robots.c lines
155-165): walk the display order from the front while the old robot's y is
strictly below the new robot's y; insert the new robot before the stopping
entry, or append if the scan ran off the end. -/
def dorder_insert (yof : Nat → Int) (newY : Int) (rid : Nat) :
    List Nat → List Nat
  | [] => [rid]
  | oldr :: rest =>
      if yof oldr < newY then oldr :: dorder_insert yof newY rid rest
      else rid :: oldr :: rest

/-- Add robot to both orderings (robots.c, robots_add_robot): append to
the unordered list and insert into the display order by the scan above. -/
def robots_add_robot (rbts : robots_t) (rid : Nat) (robot : robot_t) :
    robots_t :=
  { robots := rbts.robots ++ [(rid, robot)],
    dorder := dorder_insert (robots_yof rbts) robot.y rid rbts.dorder,
    nextId := rbts.nextId }

/-- Add new robot at the specified tile coordinates (robots.c,
robots_add): EEXIST if occupied, else create a robot facing south with a
fresh empty continuation stack and add it to both orderings. -/
def robots_add (rbts : robots_t) (x y : Int) : Nat × robots_t :=
  match robots_get rbts x y with
  | some _ => (EEXIST, rbts)
  | none =>
      let robot := robot_create x y dir_south []
      (0, { robots_add_robot { rbts with nextId := rbts.nextId + 1 }
              rbts.nextId robot with nextId := rbts.nextId + 1 })

/-- Remove robot at the specified tile coordinates (robots.c,
robots_remove): delete from both orderings if present, no-op otherwise. -/
def robots_remove (rbts : robots_t) (x y : Int) : robots_t :=
  match robots_get rbts x y with
  | none => rbts
  | some rid =>
      { robots := rbts.robots.filter (fun pr => pr.1 ≠ rid),
        dorder := rbts.dorder.filter (fun i => i ≠ rid),
        nextId := rbts.nextId }

/-- Backward splice of robots_move_robot for dy < 0 (robots.c lines
236-245): revPre is the part of the display order before the moving robot,
reversed for scanning, tail the part after it.  Walk backward while the
new y is strictly below the neighbor's y; prepend if the scan ran off the
front, else insert the robot before the stopping neighbor
(list_insert_before). -/
def dorder_splice_bwd (yof : Nat → Int) (newY : Int) (rid : Nat) :
    List Nat → List Nat → List Nat
  | [], tail => rid :: tail
  | n :: rest, tail =>
      if newY < yof n then dorder_splice_bwd yof newY rid rest (n :: tail)
      else rest.reverse ++ rid :: n :: tail

/-- Forward splice of robots_move_robot for dy >= 0 (robots.c lines
246-255): walk forward through the part after the moving robot while the
new y strictly exceeds the neighbor's y; append if the scan ran off the
end, else insert the robot after the stopping neighbor
(list_insert_after). -/
def dorder_splice_fwd (yof : Nat → Int) (newY : Int) (rid : Nat) :
    List Nat → List Nat
  | [] => [rid]
  | n :: rest =>
      if newY > yof n then n :: dorder_splice_fwd yof newY rid rest
      else n :: rid :: rest

/-- Relocation of a robot within the display order (robots.c,
robots_move_robot's list manipulation): find the robot's slot, remove it,
and splice it back by the backward (dy < 0) or forward (dy >= 0) scan. -/
def dorder_relocate (yof : Nat → Int) (newY : Int) (dy : Int) (rid : Nat) :
    List Nat → List Nat → List Nat
  | revPre, [] => revPre.reverse
  | revPre, n :: post =>
      if n = rid then
        if dy < 0 then dorder_splice_bwd yof newY rid revPre post
        else revPre.reverse ++ dorder_splice_fwd yof newY rid post
      else dorder_relocate yof newY dy rid (n :: revPre) post

/-- Change robot position (robots.c, robots_move_robot): relocate the
robot in the display order (neighbor y values read before any update),
then add the deltas to its coordinates. -/
def robots_move_robot (rbts : robots_t) (rid : Nat) (dx dy : Int) :
    robots_t :=
  match robots_lookup rbts rid with
  | none => rbts
  | some r =>
      { robots_update rbts rid { r with x := r.x + dx, y := r.y + dy } with
        dorder := dorder_relocate (robots_yof rbts) (r.y + dy) dy rid []
          rbts.dorder }

/-- Y coordinates of the robots in display order, front to back: what
iterating robots_dorder_first / robots_dorder_next observes. -/
def dorder_ys (rbts : robots_t) : List Int :=
  rbts.dorder.map (robots_yof rbts)

/-- Modelled from the spec, for comparison with the code: the insertion
point claimed by the spec for robots_add ("immediately before the first
entry with strictly greater y, else append — stable for equal y"). -/
def dorder_insert_spec (yof : Nat → Int) (newY : Int) (rid : Nat)
    (l : List Nat) : List Nat :=
  l.takeWhile (fun i => yof i ≤ newY) ++ rid :: l.dropWhile (fun i => yof i ≤ newY)

/-- Clear robot error and run state (robot.c, robot_reset): clears the
error and the current statement, nothing else. -/
def robot_reset (r : robot_t) : robot_t :=
  { r with error := errt_none, cur_stmt := none }

/-- Determine if robot is busy executing code (robot.c, robot_is_busy). -/
def robot_is_busy (r : robot_t) : Bool :=
  r.cur_stmt.isSome

/-- Determine if robot is stopped due to error (robot.c, robot_error). -/
def robot_error (r : robot_t) : robot_error_t :=
  r.error

/-- Combined engine state: the program module, the map and the robots
collection the C structs reach through their robots->prog and robots->map
pointers. -/
structure karlik_state : Type where
  prog : prog_module_t
  map : map_t
  rbts : robots_t

/-- Replace the robot stored under an id, at state level. -/
def state_update_robot (st : karlik_state) (rid : Nat) (r : robot_t) :
    karlik_state :=
  { st with rbts := robots_update st.rbts rid r }

/-- Robot stored under an id, at state level. -/
def state_robot (st : karlik_state) (rid : Nat) : Option robot_t :=
  robots_lookup st.rbts rid

/-- Turn robot left (robot.c, robot_turn_left): rotate the facing
counter-clockwise; always succeeds. -/
def robot_turn_left (st : karlik_state) (rid : Nat) : karlik_state :=
  match state_robot st rid with
  | none => st
  | some r => state_update_robot st rid { r with dir := dir_next_ccw r.dir }

/-- Move robot one square forward (robot.c, robot_move): read the tile in
front of the robot; if it is not walkable set errt_hit_wall, else change
the robot's position through robots_move_robot. -/
def robot_move (st : karlik_state) (rid : Nat) : karlik_state :=
  match state_robot st rid with
  | none => st
  | some r =>
      let off := dir_get_off r.dir
      let tile := map_get st.map (r.x + off.1) (r.y + off.2)
      if ¬ map_tile_walkable tile then
        state_update_robot st rid { r with error := errt_hit_wall }
      else
        { st with rbts := robots_move_robot st.rbts rid off.1 off.2 }

/-- Put down white tag (robot.c, robot_put_white): if the tile under the
robot is not empty set errt_already_tag, else set it to mapt_wtag. -/
def robot_put_white (st : karlik_state) (rid : Nat) : karlik_state :=
  match state_robot st rid with
  | none => st
  | some r =>
      if map_get st.map r.x r.y ≠ mapt_none then
        state_update_robot st rid { r with error := errt_already_tag }
      else
        { st with map := map_set st.map r.x r.y mapt_wtag }

/-- Put down grey tag (robot.c, robot_put_grey). -/
def robot_put_grey (st : karlik_state) (rid : Nat) : karlik_state :=
  match state_robot st rid with
  | none => st
  | some r =>
      if map_get st.map r.x r.y ≠ mapt_none then
        state_update_robot st rid { r with error := errt_already_tag }
      else
        { st with map := map_set st.map r.x r.y mapt_gtag }

/-- Put down black tag (robot.c, robot_put_black). -/
def robot_put_black (st : karlik_state) (rid : Nat) : karlik_state :=
  match state_robot st rid with
  | none => st
  | some r =>
      if map_get st.map r.x r.y ≠ mapt_none then
        state_update_robot st rid { r with error := errt_already_tag }
      else
        { st with map := map_set st.map r.x r.y mapt_btag }

/-- Pick up tag (robot.c, robot_pick_up): if the tile under the robot is
not a tag set errt_no_tag, else clear it to mapt_none. -/
def robot_pick_up (st : karlik_state) (rid : Nat) : karlik_state :=
  match state_robot st rid with
  | none => st
  | some r =>
      if ¬ map_tile_tag (map_get st.map r.x r.y) then
        state_update_robot st rid { r with error := errt_no_tag }
      else
        { st with map := map_set st.map r.x r.y mapt_none }

/-- Start executing procedure (robot.c, robot_run_proc): EBUSY if the
robot is busy or stopped on error; else point the cursor at the first
statement of the procedure's body (none for an empty body, exactly as
prog_block_first returns NULL).  A dangling robot or procedure pointer
cannot arise in C and yields EINVAL here as a modelling default. -/
def robot_run_proc (st : karlik_state) (rid : Nat) (pid : Nat) :
    Nat × karlik_state :=
  match state_robot st rid with
  | none => (EINVAL, st)
  | some r =>
      if r.cur_stmt.isSome ∨ r.error ≠ errt_none then (EBUSY, st)
      else
        match st.prog.procs.get? pid with
        | none => (EINVAL, st)
        | some proc =>
            (0, state_update_robot st rid
              { r with cur_proc := some pid,
                       cur_stmt := if proc.body.length = 0 then none else some 0 })

/-- Leave statement block (robot.c, robot_leave): with an empty
continuation stack clear the cursor (robot becomes idle); else pop the top
entry (the last pushed, rstack.c pops list_last) into the cursor. -/
def robot_leave (st : karlik_state) (rid : Nat) (r : robot_t) :
    karlik_state :=
  match r.rstack.getLast? with
  | none =>
      state_update_robot st rid { r with cur_proc := none, cur_stmt := none }
  | some e =>
      state_update_robot st rid
        { r with rstack := r.rstack.dropLast,
                 cur_proc := some e.1, cur_stmt := some e.2 }

/-- World action of one intrinsic (the switch of robot.c,
robot_stmt_intrinsic). -/
def robot_intr_exec (st : karlik_state) (rid : Nat) :
    prog_intr_type_t → karlik_state
  | progin_turn_left => robot_turn_left st rid
  | progin_move => robot_move st rid
  | progin_put_white => robot_put_white st rid
  | progin_put_grey => robot_put_grey st rid
  | progin_put_black => robot_put_black st rid
  | progin_pick_up => robot_pick_up st rid

/-- Execute intrinsic statement (robot.c, robot_stmt_intrinsic): perform
the world action; if it set an error stop there, else advance the cursor
to the next sibling or, at the end of the block, leave it. -/
def robot_stmt_intrinsic (st : karlik_state) (rid : Nat) (p s : Nat)
    (itype : prog_intr_type_t) : karlik_state :=
  let st1 := robot_intr_exec st rid itype
  match state_robot st1 rid with
  | none => st1
  | some r1 =>
      if r1.error ≠ errt_none then st1
      else
        let blen :=
          match st1.prog.procs.get? p with
          | some proc => proc.body.length
          | none => 0
        if s + 1 < blen then
          state_update_robot st1 rid { r1 with cur_stmt := some (s + 1) }
        else
          robot_leave st1 rid { r1 with cur_stmt := none }

/-- Execute call statement (robot.c, robot_stmt_call): if the call has a
following sibling push (current procedure, sibling) onto the continuation
stack (non-tail call; a tail call pushes nothing), then point the cursor
at the first statement of the callee's body.  A dangling callee pointer
cannot arise in C and yields EINVAL here as a modelling default. -/
def robot_stmt_call (st : karlik_state) (rid : Nat) (r : robot_t)
    (p s : Nat) (q : Nat) : Nat × karlik_state :=
  let blen :=
    match st.prog.procs.get? p with
    | some proc => proc.body.length
    | none => 0
  let r1 :=
    if s + 1 < blen then { r with rstack := r.rstack ++ [(p, s + 1)] }
    else r
  match st.prog.procs.get? q with
  | none => (EINVAL, st)
  | some callee =>
      (0, state_update_robot st rid
        { r1 with cur_proc := some q,
                  cur_stmt := if callee.body.length = 0 then none else some 0 })

/-- Advance one step in robot execution (robot.c, robot_step): EINVAL when
there is no current statement or the robot is stopped on error; dispatch
on the current statement's type; If/Repeat/Recurse are ENOTSUP.  A
dangling cursor cannot arise in C and yields EINVAL as a modelling
default. -/
def robot_step (st : karlik_state) (rid : Nat) : Nat × karlik_state :=
  match state_robot st rid with
  | none => (EINVAL, st)
  | some r =>
      match r.cur_stmt with
      | none => (EINVAL, st)
      | some s =>
          if r.error ≠ errt_none then (EINVAL, st)
          else
            match r.cur_proc with
            | none => (EINVAL, st)
            | some p =>
                match stmt_at st.prog p s with
                | none => (EINVAL, st)
                | some (sintr itype) =>
                    (0, robot_stmt_intrinsic st rid p s itype)
                | some (scall q) => robot_stmt_call st rid r p s q
                | some _ => (ENOTSUP, st)

/-- Iterated robot_step (the host loop that drives one robot, discarding
the per-step return codes). -/
def robot_stepN (st : karlik_state) (rid : Nat) : Nat → karlik_state
  | 0 => st
  | n + 1 => robot_stepN (robot_step st rid).2 rid n

/-- Continuation stack of the robot with a given id ([] for a dangling
id). -/
def state_rstack (st : karlik_state) (rid : Nat) : List (Nat × Nat) :=
  match state_robot st rid with
  | some r => r.rstack
  | none => []

/-- Statement is not a procedure call. -/
def stmt_not_call : prog_stmt_t → Bool
  | scall _ => false
  | _ => true

/-- Every call statement of a top-level body sits in tail position (is the
last statement of the body). -/
def body_calls_tail : List prog_stmt_t → Bool
  | [] => true
  | _ :: [] => true
  | s :: rest => stmt_not_call s && body_calls_tail rest

/-- Every call statement of every procedure's top-level body sits in tail
position. -/
def module_calls_tail (mod : prog_module_t) : Bool :=
  mod.procs.all (fun proc => body_calls_tail proc.body)

/-- World-rule check of an intrinsic, as a failure predicate (robot.c,
robot_move / robot_put_* / robot_pick_up): move fails on a non-walkable
destination, put on a non-empty tile under the robot, pick-up on a
non-tag tile under the robot; turn-left never fails. -/
def intr_check_fails (m : map_t) (r : robot_t) :
    prog_intr_type_t → Bool
  | progin_turn_left => false
  | progin_move =>
      let off := dir_get_off r.dir
      ¬ map_tile_walkable (map_get m (r.x + off.1) (r.y + off.2))
  | progin_put_white => map_get m r.x r.y ≠ mapt_none
  | progin_put_grey => map_get m r.x r.y ≠ mapt_none
  | progin_put_black => map_get m r.x r.y ≠ mapt_none
  | progin_pick_up => ¬ map_tile_tag (map_get m r.x r.y)

/-- Sticky error an intrinsic's failing world-rule check sets (robot.c):
hit-wall for move, already-tag for the puts, no-tag for pick-up
(turn-left never fails; its entry is arbitrary). -/
def intr_fail_error : prog_intr_type_t → robot_error_t
  | progin_turn_left => errt_none
  | progin_move => errt_hit_wall
  | progin_put_white => errt_already_tag
  | progin_put_grey => errt_already_tag
  | progin_put_black => errt_already_tag
  | progin_pick_up => errt_no_tag

/-- File token: the C code reads/writes line-oriented text with fscanf and
fprintf; a token is one scanned item — a decimal integer, an identifier
line of prog_proc_load_ident / prog_proc_save_ident, or one character. -/
inductive tok : Type where
  | num (n : Int)
  | ident (s : String)
  | chr (c : Char)
deriving DecidableEq, Repr

/-- Read an unsigned decimal (fscanf "%u"); a non-number token or a
negative value is a decode failure. -/
def tok_read_uint : List tok → Except Nat (Nat × List tok)
  | .num n :: rest => if n < 0 then .error EIOerr else .ok (n.toNat, rest)
  | _ => .error EIOerr

/-- Read a signed decimal (fscanf "%d"). -/
def tok_read_int : List tok → Except Nat (Int × List tok)
  | .num n :: rest => .ok (n, rest)
  | _ => .error EIOerr

/-- Read one character (fscanf "%c"). -/
def tok_read_chr : List tok → Except Nat (Char × List tok)
  | .chr c :: rest => .ok (c, rest)
  | _ => .error EIOerr

/-- Load procedure identifier (prog.c, prog_proc_load_ident): the C code
reads exactly prog_proc_id_len characters and then requires a newline, so
an identifier line of any other length is a decode failure. -/
def prog_proc_load_ident : List tok → Except Nat (String × List tok)
  | .ident s :: rest =>
      if s.length = prog_proc_id_len then .ok (s, rest) else .error EIOerr
  | _ => .error EIOerr

/-- Save procedure identifier (prog.c, prog_proc_save_ident). -/
def prog_proc_save_ident (ident : String) : List tok :=
  [.ident ident]

/-- Save condition (prog.c, prog_cond_save): negation flag as 1/0, then
the condition type value. -/
def prog_cond_save (c : prog_cond_t) : List tok :=
  [.num (if c.cnot then 1 else 0), .num (progct_to_nat c.ctype)]

/-- Load condition (prog.c, prog_cond_load): two unsigned values; a type
above progct_south = 8 is a decode failure; any nonzero flag negates. -/
def prog_cond_load (ts : List tok) : Except Nat (prog_cond_t × List tok) := do
  let (cnot, ts) ← tok_read_uint ts
  let (ctype, ts) ← tok_read_uint ts
  if ctype > progct_to_nat progct_south then .error EIOerr
  else .ok (⟨cnot ≠ 0, progct_of_nat ctype⟩, ts)

mutual

/-- Save statement (prog.c, prog_stmt_save and the per-variant savers):
the numeric statement type, then the payload — intrinsic op code; callee
identifier (dereferenced from the callee, prog_stmt_call_save); condition,
true block, false-branch flag and optional false block; repeat count,
start-condition flag/condition, body, end-condition flag/condition; or the
literal marker R for recurse. -/
def prog_stmt_save (mod : prog_module_t) : prog_stmt_t → List tok
  | sintr it => [.num 0, .num (progin_to_nat it)]
  | scall q => .num 1 :: prog_proc_save_ident (prog_ident_of mod q)
  | sif c bt bf =>
      [.num 2] ++ prog_cond_save c ++ prog_block_save mod bt ++
        (match bf with
         | some b => .num 1 :: prog_block_save mod b
         | none => [.num 0])
  | srepeat repcnt sc body ec =>
      [.num 3, .num repcnt] ++
        (match sc with
         | some c => .num 1 :: prog_cond_save c
         | none => [.num 0]) ++
        prog_block_save mod body ++
        (match ec with
         | some c => .num 1 :: prog_cond_save c
         | none => [.num 0])
  | srecurse => [.num 4, .chr 'R']
termination_by s => (sizeOf s, 0)

/-- Save block (prog.c, prog_block_save): statement count, then the
statements in order. -/
def prog_block_save (mod : prog_module_t) (l : List prog_stmt_t) :
    List tok :=
  .num l.length :: prog_stmts_save mod l
termination_by (sizeOf l, 2)

/-- Save a list of statements in order (the loop of prog_block_save). -/
def prog_stmts_save (mod : prog_module_t) : List prog_stmt_t → List tok
  | [] => []
  | s :: rest => prog_stmt_save mod s ++ prog_stmts_save mod rest
termination_by l => (sizeOf l, 1)

end

mutual

/-- Load statement (prog.c, prog_stmt_load and the per-variant loaders):
read the numeric statement type (above progst_recurse = 4 is a decode
failure) and dispatch.  A call payload identifier is resolved against the
module as loaded so far (prog_stmt_call_load); failure to resolve is a
decode failure.  The fuel argument stands for the C host recursion
stack. -/
def prog_stmt_load (mod : prog_module_t) :
    Nat → List tok → Except Nat (prog_stmt_t × List tok)
  | 0, _ => .error EIOerr
  | fuel + 1, ts => do
      let (stype, ts) ← tok_read_uint ts
      if stype > 4 then .error EIOerr
      else if stype = 0 then do
        let (itype, ts) ← tok_read_uint ts
        if itype > progin_to_nat progin_pick_up then .error EIOerr
        else .ok (sintr (progin_of_nat itype), ts)
      else if stype = 1 then do
        let (id, ts) ← prog_proc_load_ident ts
        match prog_module_proc_by_ident mod id with
        | none => .error EIOerr
        | some q => .ok (scall q, ts)
      else if stype = 2 then do
        let (cond, ts) ← prog_cond_load ts
        let (bt, ts) ← prog_block_load mod fuel ts
        let (have_false, ts) ← tok_read_uint ts
        if have_false ≠ 0 then do
          let (bf, ts) ← prog_block_load mod fuel ts
          .ok (sif cond bt (some bf), ts)
        else
          .ok (sif cond bt none, ts)
      else if stype = 3 then do
        let (repcnt, ts) ← tok_read_uint ts
        let (have_scond, ts) ← tok_read_uint ts
        let (sc, ts) ←
          if have_scond ≠ 0 then do
            let (c, ts) ← prog_cond_load ts
            pure (some c, ts)
          else pure (none, ts)
        let (body, ts) ← prog_block_load mod fuel ts
        let (have_econd, ts) ← tok_read_uint ts
        let (ec, ts) ←
          if have_econd ≠ 0 then do
            let (c, ts) ← prog_cond_load ts
            pure (some c, ts)
          else pure (none, ts)
        .ok (srepeat repcnt sc body ec, ts)
      else do
        let (c, ts) ← tok_read_chr ts
        if c ≠ 'R' then .error EIOerr
        else .ok (srecurse, ts)
termination_by fuel ts => (fuel, 0)

/-- Load block (prog.c, prog_block_load): read the statement count, then
that many statements. -/
def prog_block_load (mod : prog_module_t) :
    Nat → List tok → Except Nat (List prog_stmt_t × List tok)
  | 0, _ => .error EIOerr
  | fuel + 1, ts => do
      let (cnt, ts) ← tok_read_uint ts
      prog_stmts_load mod fuel cnt ts
termination_by fuel ts => (fuel, 0)

/-- Load a fixed number of statements (the loop of prog_block_load). -/
def prog_stmts_load (mod : prog_module_t) :
    Nat → Nat → List tok → Except Nat (List prog_stmt_t × List tok)
  | _, 0, ts => .ok ([], ts)
  | fuel, n + 1, ts => do
      let (s, ts) ← prog_stmt_load mod fuel ts
      let (l, ts) ← prog_stmts_load mod fuel n ts
      .ok (s :: l, ts)
termination_by fuel n ts => (fuel, n + 1)

end

/-- Save procedure (prog.c, prog_proc_save): identifier line, then the
body block. -/
def prog_proc_save (mod : prog_module_t) (proc : prog_proc_t) : List tok :=
  prog_proc_save_ident proc.ident ++ prog_block_save mod proc.body

/-- Load procedure (prog.c, prog_proc_load): identifier line, then the
body block, resolved against the module as loaded so far. -/
def prog_proc_load (mod : prog_module_t) (fuel : Nat) (ts : List tok) :
    Except Nat (prog_proc_t × List tok) := do
  let (id, ts) ← prog_proc_load_ident ts
  let (body, ts) ← prog_block_load mod fuel ts
  .ok (⟨id, body⟩, ts)

/-- Save the procedures of a module in order (the loop of
prog_module_save). -/
def prog_procs_save (mod : prog_module_t) : List prog_proc_t → List tok
  | [] => []
  | p :: rest => prog_proc_save mod p ++ prog_procs_save mod rest

/-- Save module (prog.c, prog_module_save): procedure count, then the
procedures in order. -/
def prog_module_save (mod : prog_module_t) : List tok :=
  .num mod.procs.length :: prog_procs_save mod mod.procs

/-- Load the given number of procedures, appending each to the module
built so far (the loop of prog_module_load: each procedure's statements
resolve call identifiers against only the previously appended
procedures). -/
def prog_module_load_procs (fuel : Nat) :
    Nat → prog_module_t → List tok → Except Nat (prog_module_t × List tok)
  | 0, mod, ts => .ok (mod, ts)
  | n + 1, mod, ts => do
      let (proc, ts) ← prog_proc_load mod fuel ts
      prog_module_load_procs fuel n (prog_module_append mod proc) ts

/-- Load module (prog.c, prog_module_load): start from an empty module,
read the procedure count, then load and append that many procedures; any
decode failure aborts the whole load. -/
def prog_module_load (fuel : Nat) (ts : List tok) :
    Except Nat (prog_module_t × List tok) := do
  let (cnt, ts) ← tok_read_uint ts
  prog_module_load_procs fuel cnt ⟨[]⟩ ts

/-- Find statement in procedure by linear index (prog.c,
prog_proc_stmt_by_index; an index past the end yields NULL/none). -/
def prog_proc_stmt_by_index (proc : prog_proc_t) (index : Nat) :
    Option prog_stmt_t :=
  proc.body.get? index

/-- Save robot stack entry (rstack.c, rstack_entry_save): the caller
procedure's identifier and the caller statement's linear index within that
procedure's top-level body (prog_proc_get_stmt_index; the identity in the
index model used here). -/
def rstack_entry_save (mod : prog_module_t) (e : Nat × Nat) : List tok :=
  prog_proc_save_ident (prog_ident_of mod e.1) ++ [.num e.2]

/-- Save the entries of a robot stack in order (the loop of
rstack_save). -/
def rstack_entries_save (mod : prog_module_t) : List (Nat × Nat) → List tok
  | [] => []
  | e :: rest => rstack_entry_save mod e ++ rstack_entries_save mod rest

/-- Save robot stack (rstack.c, rstack_save): entry count, then the
entries in order. -/
def rstack_save (mod : prog_module_t) (entries : List (Nat × Nat)) :
    List tok :=
  .num entries.length :: rstack_entries_save mod entries

/-- Load robot stack entry (rstack.c, rstack_entry_load): identifier line
and linear index; an identifier that does not resolve in the module, or an
index with no statement, is a decode failure. -/
def rstack_entry_load (mod : prog_module_t) (ts : List tok) :
    Except Nat ((Nat × Nat) × List tok) := do
  let (id, ts) ← prog_proc_load_ident ts
  let (index, ts) ← tok_read_uint ts
  match prog_module_proc_by_ident mod id with
  | none => .error EIOerr
  | some p =>
      match mod.procs.get? p with
      | none => .error EIOerr
      | some proc =>
          match prog_proc_stmt_by_index proc index with
          | none => .error EIOerr
          | some _ => .ok ((p, index), ts)

/-- Load the given number of robot stack entries, pushing each in order
(the loop of rstack_load). -/
def rstack_entries_load (mod : prog_module_t) :
    Nat → List tok → Except Nat (List (Nat × Nat) × List tok)
  | 0, ts => .ok ([], ts)
  | n + 1, ts => do
      let (e, ts) ← rstack_entry_load mod ts
      let (l, ts) ← rstack_entries_load mod n ts
      .ok (e :: l, ts)

/-- Load robot stack (rstack.c, rstack_load): entry count, then that many
entries. -/
def rstack_load (mod : prog_module_t) (ts : List tok) :
    Except Nat (List (Nat × Nat) × List tok) := do
  let (cnt, ts) ← tok_read_uint ts
  rstack_entries_load mod cnt ts

/-- Save robot (robot.c, robot_save): x, y, the direction value and the
error collapsed to 1/0 on one line, then the robot stack. -/
def robot_save (mod : prog_module_t) (r : robot_t) : List tok :=
  [.num r.x, .num r.y, .num (dir_to_int r.dir),
   .num (if r.error = errt_none then 0 else 1)] ++
    rstack_save mod r.rstack

/-- Load robot (robot.c, robot_load): x, y, direction and error (a value
at or above errt_limit is a decode failure), then the robot stack against
the already resolved module; a nonzero error value is stored back. -/
def robot_load (mod : prog_module_t) (ts : List tok) :
    Except Nat (robot_t × List tok) := do
  let (x, ts) ← tok_read_int ts
  let (y, ts) ← tok_read_int ts
  let (dir, ts) ← tok_read_int ts
  let (error, ts) ← tok_read_uint ts
  if error ≥ errt_limit then .error EIOerr
  else do
    let (entries, ts) ← rstack_load mod ts
    let r := robot_create x y (dir_of_int dir) entries
    .ok (if error ≠ 0 then { r with error := errt_of_nat error } else r, ts)

/-- One attempted identifier of prog_module_gen_ident: eight characters
drawn as A plus random() modulo 26; the rng argument is the stream of
random() values and base the index of the attempt's first draw. -/
def gen_ident_chars (rng : Nat → Nat) (base : Nat) : String :=
  ⟨(List.range prog_proc_id_len).map
    (fun i => Char.ofNat ('A'.toNat + rng (base + i) % 26))⟩

/-- Retry loop of prog_module_gen_ident: draw an identifier, retry while
it collides with an existing procedure's identifier.  The NUL terminator
is written to the buffer only after the loop exits (prog.c:177), so each
in-loop prog_module_proc_by_ident call reads, as a C string, the eight
fresh characters followed by whatever uninitialized bytes trail them in
the malloc'd buffer up to its first zero byte; the junk argument is that
indeterminate suffix, constant across attempts (empty exactly when the
ninth byte happens to be zero).  The C do-while has no bound; the fuel
argument caps the number of attempts, none standing for a run of
attempts that never terminates. -/
def prog_module_gen_ident_loop (mod : prog_module_t) (rng : Nat → Nat)
    (junk : String) : Nat → Nat → Option String
  | _, 0 => none
  | attempt, fuel + 1 =>
      let ident := gen_ident_chars rng (prog_proc_id_len * attempt)
      match prog_module_proc_by_ident mod (ident ++ junk) with
      | some _ => prog_module_gen_ident_loop mod rng junk (attempt + 1) fuel
      | none => some ident

/-- Generate new procedure identifier (prog.c, prog_module_gen_ident):
random uppercase identifiers, retried until the collision check — made on
the unterminated buffer, hence with the junk suffix appended — finds no
existing procedure; the returned identifier is the terminated 8-character
string. -/
def prog_module_gen_ident (mod : prog_module_t) (rng : Nat → Nat)
    (junk : String) (fuel : Nat) : Option String :=
  prog_module_gen_ident_loop mod rng junk 0 fuel

mutual

/-- Fuel sufficient for prog_stmt_load to load this statement. -/
def stmt_fuel : prog_stmt_t → Nat
  | sintr _ => 1
  | scall _ => 1
  | srecurse => 1
  | sif _ bt bf =>
      1 + Nat.max (block_fuel bt)
        (match bf with
         | some b => block_fuel b
         | none => 0)
  | srepeat _ _ body _ => 1 + block_fuel body
termination_by s => (sizeOf s, 0)

/-- Fuel sufficient for prog_block_load to load this block. -/
def block_fuel : List prog_stmt_t → Nat
  | [] => 1
  | s :: rest => Nat.max (1 + stmt_fuel s) (block_fuel rest)
termination_by l => (sizeOf l, 1)

end

/-- Fuel sufficient for prog_module_load to load the save of this
module. -/
def module_fuel (mod : prog_module_t) : Nat :=
  mod.procs.foldr (fun p acc => Nat.max (block_fuel p.body) acc) 0

mutual

/-- Every call in this statement (nested blocks included) refers to a
procedure with an index strictly below the bound. -/
def stmt_calls_lt (bound : Nat) : prog_stmt_t → Bool
  | scall q => decide (q < bound)
  | sif _ bt bf =>
      block_calls_lt bound bt &&
        (match bf with
         | some b => block_calls_lt bound b
         | none => true)
  | srepeat _ _ body _ => block_calls_lt bound body
  | _ => true
termination_by s => (sizeOf s, 0)

/-- Every call in this block (nested blocks included) refers to a
procedure with an index strictly below the bound. -/
def block_calls_lt (bound : Nat) : List prog_stmt_t → Bool
  | [] => true
  | s :: rest => stmt_calls_lt bound s && block_calls_lt bound rest
termination_by l => (sizeOf l, 1)

end

/-- Every call of every procedure refers to a procedure appearing strictly
earlier in the module's list. -/
def procs_calls_backward : Nat → List prog_proc_t → Bool
  | _, [] => true
  | i, p :: rest => block_calls_lt i p.body && procs_calls_backward (i + 1) rest

/-- Every call of every procedure of the module refers to a procedure
appearing strictly earlier in the module's list. -/
def module_calls_backward (mod : prog_module_t) : Bool :=
  procs_calls_backward 0 mod.procs

/-- Every procedure identifier of the module has the fixed length 8. -/
def module_idents_wf (mod : prog_module_t) : Bool :=
  mod.procs.all (fun p => decide (p.ident.length = prog_proc_id_len))

/-- A saved robot stack entry reloads against this module: the saved
identifier has the fixed length, resolves to some procedure, and the
saved index addresses a statement of the resolved procedure. -/
def rstack_entry_resolvable (mod : prog_module_t) (e : Nat × Nat) : Bool :=
  decide ((prog_ident_of mod e.1).length = prog_proc_id_len) &&
    (match prog_module_proc_by_ident mod (prog_ident_of mod e.1) with
     | none => false
     | some p =>
         match mod.procs.get? p with
         | none => false
         | some proc => (prog_proc_stmt_by_index proc e.2).isSome)

/-! Theorems. -/

theorem dorder_insert_eq (yof : Nat → Int) (newY : Int) (rid : Nat)
    (l : List Nat) :
    dorder_insert yof newY rid l =
      l.takeWhile (fun i => decide (yof i < newY)) ++
        rid :: l.dropWhile (fun i => decide (yof i < newY)) := by
  induction l with
  | nil => simp [dorder_insert]
  | cons n rest ih =>
      by_cases h : yof n < newY
      · simp [dorder_insert, List.takeWhile_cons, List.dropWhile_cons, h, ih]
      · simp [dorder_insert, List.takeWhile_cons, List.dropWhile_cons, h]

/-- C10: robot_reset sets the error to none and the cursor statement to
none (forcing Idle) and changes nothing else: position, direction, the
stored current procedure and the whole continuation stack (in particular a
non-empty one) survive the reset. -/
theorem robot_reset_clears_only_error_and_cursor (r : robot_t) :
    (robot_reset r).error = errt_none ∧
    (robot_reset r).cur_stmt = none ∧
    robot_is_busy (robot_reset r) = false ∧
    (robot_reset r).x = r.x ∧
    (robot_reset r).y = r.y ∧
    (robot_reset r).dir = r.dir ∧
    (robot_reset r).cur_proc = r.cur_proc ∧
    (robot_reset r).rstack = r.rstack := by
  simp [robot_reset, robot_is_busy]

/-- C1: evaluation of the failing input.  Two robots are added at (0,0)
and (0,1), then the first is moved east (dx = 1, dy = 0) with
robots_move_robot; the resulting draw order lists y values 1, 0, which is
not non-decreasing — robots_move_robot splices the moved robot on the
wrong side of the neighbor its scan stops at. -/
theorem robots_move_robot_breaks_draw_order :
    dorder_ys (robots_move_robot
        (robots_add ((robots_add robots_empty 0 0).2) 0 1).2 0 1 0) =
      [1, 0] ∧
    ¬ List.Chain' (· ≤ ·) (dorder_ys (robots_move_robot
        (robots_add ((robots_add robots_empty 0 0).2) 0 1).2 0 1 0)) := by
  have h1 : dorder_ys (robots_move_robot
      (robots_add ((robots_add robots_empty 0 0).2) 0 1).2 0 1 0) =
      [1, 0] := by decide
  refine ⟨h1, ?_⟩
  rw [h1]
  norm_num [List.chain'_cons]

/-- C7, counterexample to stability for equal y: adding a robot at (0,0)
and then one at (1,0) (equal y) places the new robot id 1 before the
existing id 0 in the draw order, while the claimed insertion point
(before the first entry with strictly greater y — after all equal-y
entries) would give the order 0, 1. -/
theorem robots_add_equal_y_goes_first :
    (robots_add ((robots_add robots_empty 0 0).2) 1 0).2.dorder = [1, 0] ∧
    dorder_insert_spec (robots_yof (robots_add robots_empty 0 0).2) 0 1
        ((robots_add robots_empty 0 0).2).dorder = [0, 1] := by
  constructor
  · decide
  · decide

/-- C7, amended: robots_add on an occupied tile fails with EEXIST and
changes nothing; otherwise it returns 0 and creates a robot with default
facing south, no cursor, no error and an empty continuation stack, appends
it to the unordered list, and inserts it into the draw order immediately
before the first existing entry whose y is greater than or equal to the
new robot's y (else appends it at the end) — a new robot with equal y is
placed before, not after, the existing entries of that y. -/
theorem robots_add_insertion_point (rbts : robots_t) (x y : Int) :
    robots_add rbts x y =
      if (robots_get rbts x y).isSome then (EEXIST, rbts)
      else
        (0, { robots := rbts.robots ++
                [(rbts.nextId, ⟨x, y, dir_south, none, none, [], errt_none⟩)],
              dorder := rbts.dorder.takeWhile
                  (fun i => decide (robots_yof rbts i < y)) ++
                rbts.nextId :: rbts.dorder.dropWhile
                  (fun i => decide (robots_yof rbts i < y)),
              nextId := rbts.nextId + 1 }) := by
  cases h : robots_get rbts x y with
  | some rid => simp [robots_add, h]
  | none =>
      have hyof : robots_yof { rbts with nextId := rbts.nextId + 1 } =
          robots_yof rbts := rfl
      simp [robots_add, h, robots_add_robot, robot_create, hyof,
        dorder_insert_eq]

theorem find?_map_update (l : List (Nat × robot_t)) (rid : Nat)
    (r : robot_t) :
    (l.map (fun pr => if pr.1 = rid then (pr.1, r) else pr)).find?
        (fun pr => pr.1 = rid) =
      (l.find? (fun pr => pr.1 = rid)).map (fun _ => (rid, r)) := by
  induction l with
  | nil => rfl
  | cons pr rest ih =>
      by_cases h : pr.1 = rid
      · simp [List.find?_cons, h]
      · simp [List.find?_cons, h, ih]

theorem robots_lookup_update (rbts : robots_t) (rid : Nat) (r : robot_t) :
    robots_lookup (robots_update rbts rid r) rid =
      (robots_lookup rbts rid).map (fun _ => r) := by
  unfold robots_lookup robots_update
  rw [find?_map_update]
  cases rbts.robots.find? (fun pr => pr.1 = rid) <;> rfl

theorem robots_lookup_dorder (rbts : robots_t) (d : List Nat) (rid : Nat) :
    robots_lookup { rbts with dorder := d } rid = robots_lookup rbts rid :=
  rfl

theorem robots_lookup_move (rbts : robots_t) (rid : Nat) (dx dy : Int) :
    robots_lookup (robots_move_robot rbts rid dx dy) rid =
      (robots_lookup rbts rid).map
        (fun r => { r with x := r.x + dx, y := r.y + dy }) := by
  unfold robots_move_robot
  cases h : robots_lookup rbts rid with
  | none => simp [h]
  | some r => simp [h, robots_lookup_dorder, robots_lookup_update]

theorem state_robot_update (st : karlik_state) (rid : Nat) (r : robot_t) :
    state_robot (state_update_robot st rid r) rid =
      (state_robot st rid).map (fun _ => r) :=
  robots_lookup_update st.rbts rid r

theorem state_rstack_eq_of (st : karlik_state) (rid : Nat) (r₀ : robot_t)
    (h : state_robot st rid = some r₀) : state_rstack st rid = r₀.rstack := by
  unfold state_rstack
  rw [h]

theorem state_rstack_update_of (st : karlik_state) (rid : Nat)
    (r r₀ : robot_t) (h : state_robot st rid = some r₀) :
    state_rstack (state_update_robot st rid r) rid = r.rstack := by
  unfold state_rstack
  rw [state_robot_update, h]
  rfl

theorem robot_intr_exec_rstack (st : karlik_state) (rid : Nat)
    (it : prog_intr_type_t) :
    state_rstack (robot_intr_exec st rid it) rid = state_rstack st rid := by
  cases h : state_robot st rid with
  | none =>
      cases it <;>
        simp [robot_intr_exec, robot_turn_left, robot_move, robot_put_white,
          robot_put_grey, robot_put_black, robot_pick_up, h]
  | some r =>
      have hl : state_rstack st rid = r.rstack := state_rstack_eq_of st rid r h
      have hmv : ∀ dx dy : Int,
          state_rstack { st with rbts := robots_move_robot st.rbts rid dx dy }
            rid = r.rstack := by
        intro dx dy
        unfold state_rstack state_robot
        have h' : robots_lookup st.rbts rid = some r := h
        simp [robots_lookup_move, h']
      have hmap : ∀ m : map_t, state_rstack { st with map := m } rid =
          r.rstack := by
        intro m
        unfold state_rstack state_robot
        have h' : robots_lookup st.rbts rid = some r := h
        simp [h']
      cases it with
      | progin_turn_left =>
          simp only [robot_intr_exec, robot_turn_left, h]
          rw [state_rstack_update_of st rid _ r h, hl]
      | progin_move =>
          simp only [robot_intr_exec, robot_move, h]
          by_cases hw : map_tile_walkable (map_get st.map
              (r.x + (dir_get_off r.dir).1) (r.y + (dir_get_off r.dir).2)) = true
          · rw [if_neg (by simp [hw]), hmv, hl]
          · rw [if_pos (by simp [hw]), state_rstack_update_of st rid _ r h, hl]
      | progin_put_white =>
          simp only [robot_intr_exec, robot_put_white, h]
          by_cases hm : map_get st.map r.x r.y = mapt_none
          · rw [if_neg (by simp [hm]), hmap, hl]
          · rw [if_pos (by simp [hm]), state_rstack_update_of st rid _ r h, hl]
      | progin_put_grey =>
          simp only [robot_intr_exec, robot_put_grey, h]
          by_cases hm : map_get st.map r.x r.y = mapt_none
          · rw [if_neg (by simp [hm]), hmap, hl]
          · rw [if_pos (by simp [hm]), state_rstack_update_of st rid _ r h, hl]
      | progin_put_black =>
          simp only [robot_intr_exec, robot_put_black, h]
          by_cases hm : map_get st.map r.x r.y = mapt_none
          · rw [if_neg (by simp [hm]), hmap, hl]
          · rw [if_pos (by simp [hm]), state_rstack_update_of st rid _ r h, hl]
      | progin_pick_up =>
          simp only [robot_intr_exec, robot_pick_up, h]
          by_cases hm : map_tile_tag (map_get st.map r.x r.y) = true
          · rw [if_neg (by simp [hm]), hmap, hl]
          · rw [if_pos (by simp [hm]), state_rstack_update_of st rid _ r h, hl]

theorem robot_leave_prog (st : karlik_state) (rid : Nat) (r : robot_t) :
    (robot_leave st rid r).prog = st.prog := by
  unfold robot_leave
  split <;> rfl

theorem robot_turn_left_prog (st : karlik_state) (rid : Nat) :
    (robot_turn_left st rid).prog = st.prog := by
  unfold robot_turn_left
  split <;> rfl

theorem robot_move_prog (st : karlik_state) (rid : Nat) :
    (robot_move st rid).prog = st.prog := by
  unfold robot_move
  split
  · rfl
  · dsimp only
    split <;> rfl

theorem robot_put_white_prog (st : karlik_state) (rid : Nat) :
    (robot_put_white st rid).prog = st.prog := by
  unfold robot_put_white
  split
  · rfl
  · split <;> rfl

theorem robot_put_grey_prog (st : karlik_state) (rid : Nat) :
    (robot_put_grey st rid).prog = st.prog := by
  unfold robot_put_grey
  split
  · rfl
  · split <;> rfl

theorem robot_put_black_prog (st : karlik_state) (rid : Nat) :
    (robot_put_black st rid).prog = st.prog := by
  unfold robot_put_black
  split
  · rfl
  · split <;> rfl

theorem robot_pick_up_prog (st : karlik_state) (rid : Nat) :
    (robot_pick_up st rid).prog = st.prog := by
  unfold robot_pick_up
  split
  · rfl
  · split <;> rfl

theorem robot_intr_exec_prog (st : karlik_state) (rid : Nat)
    (it : prog_intr_type_t) :
    (robot_intr_exec st rid it).prog = st.prog := by
  cases it <;>
    simp only [robot_intr_exec, robot_turn_left_prog, robot_move_prog,
      robot_put_white_prog, robot_put_grey_prog, robot_put_black_prog,
      robot_pick_up_prog]

theorem robot_stmt_intrinsic_prog (st : karlik_state) (rid : Nat)
    (p s : Nat) (it : prog_intr_type_t) :
    (robot_stmt_intrinsic st rid p s it).prog = st.prog := by
  unfold robot_stmt_intrinsic
  dsimp only
  split
  · exact robot_intr_exec_prog st rid it
  · split
    · exact robot_intr_exec_prog st rid it
    · split
      · exact robot_intr_exec_prog st rid it
      · rw [robot_leave_prog]
        exact robot_intr_exec_prog st rid it

theorem robot_stmt_call_prog (st : karlik_state) (rid : Nat) (r : robot_t)
    (p s q : Nat) :
    (robot_stmt_call st rid r p s q).2.prog = st.prog := by
  unfold robot_stmt_call
  dsimp only
  split <;> rfl

theorem robot_step_prog (st : karlik_state) (rid : Nat) :
    (robot_step st rid).2.prog = st.prog := by
  unfold robot_step
  split
  · rfl
  · split
    · rfl
    · split
      · rfl
      · split
        · rfl
        · split
          · rfl
          · exact robot_stmt_intrinsic_prog st rid _ _ _
          · exact robot_stmt_call_prog st rid _ _ _ _
          · rfl

theorem body_calls_tail_get (body : List prog_stmt_t) (s q : Nat)
    (hb : body_calls_tail body = true)
    (hg : body.get? s = some (scall q)) :
    s + 1 = body.length := by
  induction body generalizing s with
  | nil => simp at hg
  | cons b rest ih =>
      cases rest with
      | nil =>
          cases s with
          | zero => rfl
          | succ s => rw [List.get?_cons_succ] at hg; simp at hg
      | cons b2 rest2 =>
          have hb' : stmt_not_call b = true ∧
              body_calls_tail (b2 :: rest2) = true := by
            simpa [body_calls_tail, Bool.and_eq_true] using hb
          cases s with
          | zero =>
              rw [List.get?_cons_zero] at hg
              have hb2 : b = scall q := by injection hg
              rw [hb2] at hb'
              simp [stmt_not_call] at hb'
          | succ s =>
              rw [List.get?_cons_succ] at hg
              have hlen := ih s hb'.2 hg
              simp only [List.length_cons] at hlen ⊢
              omega

theorem module_calls_tail_get (mod : prog_module_t) (p : Nat)
    (proc : prog_proc_t) (hm : module_calls_tail mod = true)
    (hp : mod.procs.get? p = some proc) :
    body_calls_tail proc.body = true := by
  have hmem : proc ∈ mod.procs := List.get?_mem hp
  unfold module_calls_tail at hm
  rw [List.all_eq_true] at hm
  exact hm proc hmem

theorem robot_stmt_intrinsic_rstack (st : karlik_state) (rid : Nat)
    (p s : Nat) (it : prog_intr_type_t)
    (hrs : state_rstack st rid = []) :
    state_rstack (robot_stmt_intrinsic st rid p s it) rid = [] := by
  have h1 : state_rstack (robot_intr_exec st rid it) rid = [] := by
    rw [robot_intr_exec_rstack]; exact hrs
  unfold robot_stmt_intrinsic
  dsimp only
  cases h2 : state_robot (robot_intr_exec st rid it) rid with
  | none => exact h1
  | some r1 =>
      have hr1 : r1.rstack = [] := by
        unfold state_rstack at h1
        rw [h2] at h1
        exact h1
      dsimp only
      by_cases he : r1.error ≠ errt_none
      · rw [if_pos he]; exact h1
      · rw [if_neg he]
        split
        · rw [state_rstack_update_of _ _ _ r1 h2]
          exact hr1
        · unfold robot_leave
          rw [show ({ r1 with cur_stmt := none } : robot_t).rstack.getLast? =
              none from by simp [hr1]]
          rw [state_rstack_update_of _ _ _ r1 h2]
          exact hr1

theorem robot_step_keeps_rstack_empty (st : karlik_state) (rid : Nat)
    (hmod : module_calls_tail st.prog = true)
    (hrs : state_rstack st rid = []) :
    state_rstack (robot_step st rid).2 rid = [] := by
  unfold robot_step
  cases h : state_robot st rid with
  | none => exact hrs
  | some r =>
      have hr : r.rstack = [] := by
        unfold state_rstack at hrs
        rw [h] at hrs
        exact hrs
      dsimp only
      cases hcs : r.cur_stmt with
      | none => exact hrs
      | some s =>
          dsimp only
          by_cases he : r.error ≠ errt_none
          · rw [if_pos he]; exact hrs
          · rw [if_neg he]
            cases hcp : r.cur_proc with
            | none => exact hrs
            | some p =>
                dsimp only
                cases hstmt : stmt_at st.prog p s with
                | none => exact hrs
                | some stmt =>
                    cases stmt with
                    | sintr it =>
                        exact robot_stmt_intrinsic_rstack st rid p s it hrs
                    | scall q =>
                        dsimp only
                        unfold stmt_at at hstmt
                        cases hp : st.prog.procs.get? p with
                        | none => rw [hp] at hstmt; simp at hstmt
                        | some proc =>
                            rw [hp] at hstmt
                            dsimp only at hstmt
                            have hbt := module_calls_tail_get st.prog p proc
                              hmod hp
                            have hlen := body_calls_tail_get proc.body s q
                              hbt hstmt
                            unfold robot_stmt_call
                            rw [hp]
                            dsimp only
                            rw [if_neg (by omega)]
                            cases hq : st.prog.procs.get? q with
                            | none => exact hrs
                            | some callee =>
                                dsimp only
                                rw [state_rstack_update_of _ _ _ r h]
                                exact hr
                    | sif cond bt bf => exact hrs
                    | srepeat repcnt sc body ec => exact hrs
                    | srecurse => exact hrs

/-- C2: in a module all of whose call statements sit in tail position (in
particular for A = [call B], B = [move, call A]), a robot whose
continuation stack is empty keeps it empty — at depth 0 — over any number
of robot_step calls: tail calls elide the continuation push, a successful
intrinsic either advances within the block or leaves it without popping
anything (the stack is empty), and failing or unsupported statements
change nothing. -/
theorem tail_calls_keep_rstack_empty (st : karlik_state) (rid : Nat)
    (hmod : module_calls_tail st.prog = true)
    (hrs : state_rstack st rid = []) :
    ∀ n, state_rstack (robot_stepN st rid n) rid = [] := by
  have main : ∀ (n : Nat) (st' : karlik_state),
      module_calls_tail st'.prog = true → state_rstack st' rid = [] →
      state_rstack (robot_stepN st' rid n) rid = [] := by
    intro n
    induction n with
    | zero => intro st' _ h2; exact h2
    | succ n ih =>
        intro st' h1 h2
        rw [robot_stepN]
        exact ih (robot_step st' rid).2
          (by rw [robot_step_prog]; exact h1)
          (robot_step_keeps_rstack_empty st' rid h1 h2)
  exact fun n => main n st hmod hrs

/-- C2 witness: the module A = [call B], B = [move, call A] over an open
corridor, the robot running A; after 100 steps the continuation stack is
still empty. -/
theorem tail_calls_keep_rstack_empty_witness :
    module_calls_tail (⟨[⟨"AAAAAAAA", [scall 1]⟩,
        ⟨"BBBBBBBB", [sintr progin_move, scall 0]⟩]⟩ : prog_module_t) =
      true ∧
    state_rstack (robot_stepN
      ⟨⟨[⟨"AAAAAAAA", [scall 1]⟩,
         ⟨"BBBBBBBB", [sintr progin_move, scall 0]⟩]⟩,
       ⟨fun _ _ => mapt_none⟩,
       ⟨[(0, ⟨0, 0, dir_east, some 0, some 0, [], errt_none⟩)], [0], 1⟩⟩
      0 100) 0 = [] :=
  ⟨by decide,
   tail_calls_keep_rstack_empty
     ⟨⟨[⟨"AAAAAAAA", [scall 1]⟩,
        ⟨"BBBBBBBB", [sintr progin_move, scall 0]⟩]⟩,
      ⟨fun _ _ => mapt_none⟩,
      ⟨[(0, ⟨0, 0, dir_east, some 0, some 0, [], errt_none⟩)], [0], 1⟩⟩
     0 (by decide) rfl 100⟩

theorem robot_intr_exec_fail (st : karlik_state) (rid : Nat) (r : robot_t)
    (it : prog_intr_type_t) (hr : state_robot st rid = some r)
    (hf : intr_check_fails st.map r it = true) :
    robot_intr_exec st rid it =
      state_update_robot st rid { r with error := intr_fail_error it } := by
  cases it with
  | progin_turn_left => simp [intr_check_fails] at hf
  | progin_move =>
      have hf' : ¬ map_tile_walkable (map_get st.map
          (r.x + (dir_get_off r.dir).1) (r.y + (dir_get_off r.dir).2)) =
          true := by
        simpa [intr_check_fails] using hf
      unfold robot_intr_exec robot_move
      rw [hr]
      dsimp only
      rw [if_pos hf']
      rfl
  | progin_put_white =>
      have hf' : map_get st.map r.x r.y ≠ mapt_none := by
        simpa [intr_check_fails] using hf
      unfold robot_intr_exec robot_put_white
      rw [hr]
      dsimp only
      rw [if_pos hf']
      rfl
  | progin_put_grey =>
      have hf' : map_get st.map r.x r.y ≠ mapt_none := by
        simpa [intr_check_fails] using hf
      unfold robot_intr_exec robot_put_grey
      rw [hr]
      dsimp only
      rw [if_pos hf']
      rfl
  | progin_put_black =>
      have hf' : map_get st.map r.x r.y ≠ mapt_none := by
        simpa [intr_check_fails] using hf
      unfold robot_intr_exec robot_put_black
      rw [hr]
      dsimp only
      rw [if_pos hf']
      rfl
  | progin_pick_up =>
      have hf' : ¬ map_tile_tag (map_get st.map r.x r.y) = true := by
        simpa [intr_check_fails] using hf
      unfold robot_intr_exec robot_pick_up
      rw [hr]
      dsimp only
      rw [if_pos hf']
      rfl

theorem intr_fail_error_ne (it : prog_intr_type_t) (m : map_t)
    (r : robot_t) (hf : intr_check_fails m r it = true) :
    intr_fail_error it ≠ errt_none := by
  cases it with
  | progin_turn_left => simp [intr_check_fails] at hf
  | progin_move => simp [intr_fail_error]
  | progin_put_white => simp [intr_fail_error]
  | progin_put_grey => simp [intr_fail_error]
  | progin_put_black => simp [intr_fail_error]
  | progin_pick_up => simp [intr_fail_error]

theorem robot_step_refused (st : karlik_state) (rid : Nat) (r : robot_t)
    (hr : state_robot st rid = some r) (hcs : r.cur_stmt.isSome = true)
    (he : r.error ≠ errt_none) :
    robot_step st rid = (EINVAL, st) := by
  unfold robot_step
  rw [hr]
  dsimp only
  cases hc : r.cur_stmt with
  | none => exact absurd hcs (by simp [hc])
  | some s =>
      dsimp only
      rw [if_pos he]

theorem robot_stepN_stuck (st : karlik_state) (rid : Nat)
    (h : robot_step st rid = (EINVAL, st)) :
    ∀ n, robot_stepN st rid n = st := by
  intro n
  induction n with
  | zero => rfl
  | succ n ih =>
      rw [robot_stepN, h]
      exact ih

/-- C3: a robot_step on an intrinsic whose world-rule check fails (move
into a non-walkable tile, put-tag on a non-empty tile, pick-up on a
non-tag tile) returns 0 and changes only the robot's sticky error — to
hit-wall / already-tag / no-tag respectively; the map, the robot's
position, direction and cursor (still at the failing statement, so the
robot stays busy) are unchanged, and every further robot_step is refused
with EINVAL, changing nothing, until robot_reset. -/
theorem robot_step_failing_intrinsic (st : karlik_state) (rid : Nat)
    (r : robot_t) (p s : Nat) (it : prog_intr_type_t)
    (hr : state_robot st rid = some r)
    (he : r.error = errt_none)
    (hcp : r.cur_proc = some p)
    (hcs : r.cur_stmt = some s)
    (hst : stmt_at st.prog p s = some (sintr it))
    (hf : intr_check_fails st.map r it = true) :
    robot_step st rid =
      (0, state_update_robot st rid { r with error := intr_fail_error it }) ∧
    (robot_step st rid).2.map = st.map ∧
    state_robot (robot_step st rid).2 rid =
      some { r with error := intr_fail_error it } ∧
    robot_is_busy { r with error := intr_fail_error it } = true ∧
    robot_step (robot_step st rid).2 rid = (EINVAL, (robot_step st rid).2) ∧
    ∀ n, robot_stepN (robot_step st rid).2 rid n = (robot_step st rid).2 := by
  have hmain : robot_step st rid =
      (0, state_update_robot st rid { r with error := intr_fail_error it }) := by
    unfold robot_step
    rw [hr]
    dsimp only
    rw [hcs]
    dsimp only
    rw [if_neg (by simp [he])]
    rw [hcp]
    dsimp only
    rw [hst]
    dsimp only
    unfold robot_stmt_intrinsic
    dsimp only
    rw [robot_intr_exec_fail st rid r it hr hf]
    rw [state_robot_update, hr]
    rw [show (Option.map (fun _ => ({ r with error := intr_fail_error it } :
        robot_t)) (some r)) = some { r with error := intr_fail_error it }
      from rfl]
    dsimp only
    rw [if_pos (by simpa using intr_fail_error_ne it st.map r hf)]
    rw [hcp, hcs]
  have hrobot : state_robot (robot_step st rid).2 rid =
      some { r with error := intr_fail_error it } := by
    rw [hmain]
    dsimp only
    rw [state_robot_update, hr]
    rfl
  have hbusy : robot_is_busy { r with error := intr_fail_error it } = true := by
    simp [robot_is_busy, hcs]
  have hrefuse : robot_step (robot_step st rid).2 rid =
      (EINVAL, (robot_step st rid).2) :=
    robot_step_refused (robot_step st rid).2 rid _ hrobot
      (by simpa [robot_is_busy] using hbusy)
      (by simpa using intr_fail_error_ne it st.map r hf)
  refine ⟨hmain, by rw [hmain]; rfl, hrobot, hbusy, hrefuse, ?_⟩
  exact robot_stepN_stuck (robot_step st rid).2 rid hrefuse

/-- C3 witness: scenario A — robot at (1,1) facing east, wall at (2,1),
running a procedure whose current statement is the intrinsic move; the
step returns 0, sets hit-wall, keeps the robot busy at the same statement,
and the next step is refused. -/
theorem robot_step_failing_intrinsic_witness :
    robot_step
        ⟨⟨[⟨"AAAAAAAA", [sintr progin_move]⟩]⟩,
         ⟨fun x y => if x = 2 ∧ y = 1 then mapt_wall else mapt_none⟩,
         ⟨[(0, ⟨1, 1, dir_east, some 0, some 0, [], errt_none⟩)], [0], 1⟩⟩ 0 =
      (0, state_update_robot
        ⟨⟨[⟨"AAAAAAAA", [sintr progin_move]⟩]⟩,
         ⟨fun x y => if x = 2 ∧ y = 1 then mapt_wall else mapt_none⟩,
         ⟨[(0, ⟨1, 1, dir_east, some 0, some 0, [], errt_none⟩)], [0], 1⟩⟩ 0
        ⟨1, 1, dir_east, some 0, some 0, [], errt_hit_wall⟩) :=
  (robot_step_failing_intrinsic
    ⟨⟨[⟨"AAAAAAAA", [sintr progin_move]⟩]⟩,
     ⟨fun x y => if x = 2 ∧ y = 1 then mapt_wall else mapt_none⟩,
     ⟨[(0, ⟨1, 1, dir_east, some 0, some 0, [], errt_none⟩)], [0], 1⟩⟩ 0
    ⟨1, 1, dir_east, some 0, some 0, [], errt_none⟩ 0 0 progin_move
    rfl rfl rfl rfl rfl (by decide)).1

theorem robot_step_idle (st : karlik_state) (rid : Nat) (r : robot_t)
    (hr : state_robot st rid = some r) (hcs : r.cur_stmt = none) :
    robot_step st rid = (EINVAL, st) := by
  unfold robot_step
  rw [hr]
  dsimp only
  rw [hcs]

/-- C6: robot_run_proc on a procedure with an empty body, from a non-busy,
error-free robot, succeeds and immediately leaves the robot Idle (the
cursor statement is none, exactly as prog_block_first returns NULL on an
empty block), not busy and error-free; the following robot_step finds no
current statement, returns EINVAL and changes nothing — so the map and the
robot's position and direction are untouched. -/
theorem run_empty_proc_then_step_idle (st : karlik_state) (rid pid : Nat)
    (r : robot_t) (proc : prog_proc_t)
    (hr : state_robot st rid = some r)
    (hcs : r.cur_stmt = none) (he : r.error = errt_none)
    (hp : st.prog.procs.get? pid = some proc)
    (hb : proc.body = []) :
    (robot_run_proc st rid pid).1 = 0 ∧
    state_robot (robot_run_proc st rid pid).2 rid =
      some { r with cur_proc := some pid, cur_stmt := none } ∧
    robot_is_busy { r with cur_proc := some pid, cur_stmt := none } = false ∧
    ({ r with cur_proc := some pid, cur_stmt := none } : robot_t).error =
      errt_none ∧
    (robot_run_proc st rid pid).2.map = st.map ∧
    robot_step (robot_run_proc st rid pid).2 rid =
      (EINVAL, (robot_run_proc st rid pid).2) := by
  have hmain : robot_run_proc st rid pid =
      (0, state_update_robot st rid
        { r with cur_proc := some pid, cur_stmt := none }) := by
    unfold robot_run_proc
    rw [hr]
    dsimp only
    rw [if_neg (by simp [hcs, he])]
    rw [hp]
    dsimp only
    rw [hb]
    rfl
  have hrobot : state_robot (robot_run_proc st rid pid).2 rid =
      some { r with cur_proc := some pid, cur_stmt := none } := by
    rw [hmain]
    dsimp only
    rw [state_robot_update, hr]
    rfl
  refine ⟨by rw [hmain], hrobot, rfl, by simpa using he, by rw [hmain]; rfl, ?_⟩
  exact robot_step_idle (robot_run_proc st rid pid).2 rid _ hrobot rfl

/-- C6 witness: an empty procedure, a fresh robot; run_proc succeeds and
the subsequent step is refused with the state unchanged. -/
theorem run_empty_proc_then_step_idle_witness :
    (robot_run_proc
        ⟨⟨[⟨"AAAAAAAA", []⟩]⟩, ⟨fun _ _ => mapt_none⟩,
         ⟨[(0, ⟨0, 0, dir_south, none, none, [], errt_none⟩)], [0], 1⟩⟩
        0 0).1 = 0 ∧
    state_robot (robot_run_proc
        ⟨⟨[⟨"AAAAAAAA", []⟩]⟩, ⟨fun _ _ => mapt_none⟩,
         ⟨[(0, ⟨0, 0, dir_south, none, none, [], errt_none⟩)], [0], 1⟩⟩
        0 0).2 0 = some ⟨0, 0, dir_south, some 0, none, [], errt_none⟩ :=
  have h := run_empty_proc_then_step_idle
    ⟨⟨[⟨"AAAAAAAA", []⟩]⟩, ⟨fun _ _ => mapt_none⟩,
     ⟨[(0, ⟨0, 0, dir_south, none, none, [], errt_none⟩)], [0], 1⟩⟩
    0 0 ⟨0, 0, dir_south, none, none, [], errt_none⟩ ⟨"AAAAAAAA", []⟩
    rfl rfl rfl rfl rfl
  ⟨h.1, h.2.1⟩

/-- C5: scenario B — a robot at (0,0) facing east with a walkable tile at
(1,0); run_proc on the one-statement procedure [move], then one step: the
run and the step both return 0 and the robot ends at (1,0) with no error
and no cursor (Idle). -/
theorem scenario_b_move_success (m : map_t) (st0 : karlik_state)
    (hst : st0 = ⟨⟨[⟨"AAAAAAAA", [sintr progin_move]⟩]⟩, m,
      ⟨[(0, ⟨0, 0, dir_east, none, none, [], errt_none⟩)], [0], 1⟩⟩)
    (hw : map_tile_walkable (map_get m 1 0) = true) :
    (robot_run_proc st0 0 0).1 = 0 ∧
    (robot_step (robot_run_proc st0 0 0).2 0).1 = 0 ∧
    state_robot (robot_step (robot_run_proc st0 0 0).2 0).2 0 =
      some ⟨1, 0, dir_east, none, none, [], errt_none⟩ ∧
    robot_is_busy (⟨1, 0, dir_east, none, none, [], errt_none⟩ : robot_t) =
      false := by
  subst hst
  have h1 : robot_run_proc
      ⟨⟨[⟨"AAAAAAAA", [sintr progin_move]⟩]⟩, m,
       ⟨[(0, ⟨0, 0, dir_east, none, none, [], errt_none⟩)], [0], 1⟩⟩ 0 0 =
      (0, ⟨⟨[⟨"AAAAAAAA", [sintr progin_move]⟩]⟩, m,
       ⟨[(0, ⟨0, 0, dir_east, some 0, some 0, [], errt_none⟩)], [0], 1⟩⟩) :=
    rfl
  have h3 : robot_move
      ⟨⟨[⟨"AAAAAAAA", [sintr progin_move]⟩]⟩, m,
       ⟨[(0, ⟨0, 0, dir_east, some 0, some 0, [], errt_none⟩)], [0], 1⟩⟩ 0 =
      ⟨⟨[⟨"AAAAAAAA", [sintr progin_move]⟩]⟩, m,
       ⟨[(0, ⟨1, 0, dir_east, some 0, some 0, [], errt_none⟩)], [0], 1⟩⟩ := by
    unfold robot_move
    rw [show state_robot
        ⟨⟨[⟨"AAAAAAAA", [sintr progin_move]⟩]⟩, m,
         ⟨[(0, ⟨0, 0, dir_east, some 0, some 0, [], errt_none⟩)], [0], 1⟩⟩ 0 =
        some ⟨0, 0, dir_east, some 0, some 0, [], errt_none⟩ from rfl]
    dsimp only
    rw [if_neg (by simpa using hw)]
    rfl
  have h4 : robot_stmt_intrinsic
      ⟨⟨[⟨"AAAAAAAA", [sintr progin_move]⟩]⟩, m,
       ⟨[(0, ⟨0, 0, dir_east, some 0, some 0, [], errt_none⟩)], [0], 1⟩⟩
      0 0 0 progin_move =
      ⟨⟨[⟨"AAAAAAAA", [sintr progin_move]⟩]⟩, m,
       ⟨[(0, ⟨1, 0, dir_east, none, none, [], errt_none⟩)], [0], 1⟩⟩ := by
    unfold robot_stmt_intrinsic
    dsimp only
    rw [show robot_intr_exec
        ⟨⟨[⟨"AAAAAAAA", [sintr progin_move]⟩]⟩, m,
         ⟨[(0, ⟨0, 0, dir_east, some 0, some 0, [], errt_none⟩)], [0], 1⟩⟩
        0 progin_move =
        ⟨⟨[⟨"AAAAAAAA", [sintr progin_move]⟩]⟩, m,
         ⟨[(0, ⟨1, 0, dir_east, some 0, some 0, [], errt_none⟩)], [0], 1⟩⟩
      from h3]
    rfl
  have h2 : robot_step
      ⟨⟨[⟨"AAAAAAAA", [sintr progin_move]⟩]⟩, m,
       ⟨[(0, ⟨0, 0, dir_east, some 0, some 0, [], errt_none⟩)], [0], 1⟩⟩ 0 =
      (0, robot_stmt_intrinsic
        ⟨⟨[⟨"AAAAAAAA", [sintr progin_move]⟩]⟩, m,
         ⟨[(0, ⟨0, 0, dir_east, some 0, some 0, [], errt_none⟩)], [0], 1⟩⟩
        0 0 0 progin_move) := rfl
  refine ⟨by rw [h1], ?_, ?_, rfl⟩
  · rw [h1]
    dsimp only
    rw [h2]
  · rw [h1]
    dsimp only
    rw [h2]
    dsimp only
    rw [h4]
    rfl

/-- C5 witness: the all-empty map satisfies the walkable hypothesis. -/
theorem scenario_b_move_success_witness :
    state_robot (robot_step (robot_run_proc
        ⟨⟨[⟨"AAAAAAAA", [sintr progin_move]⟩]⟩, ⟨fun _ _ => mapt_none⟩,
         ⟨[(0, ⟨0, 0, dir_east, none, none, [], errt_none⟩)], [0], 1⟩⟩
        0 0).2 0).2 0 =
      some ⟨1, 0, dir_east, none, none, [], errt_none⟩ :=
  (scenario_b_move_success ⟨fun _ _ => mapt_none⟩
    ⟨⟨[⟨"AAAAAAAA", [sintr progin_move]⟩]⟩, ⟨fun _ _ => mapt_none⟩,
     ⟨[(0, ⟨0, 0, dir_east, none, none, [], errt_none⟩)], [0], 1⟩⟩
    rfl rfl).2.2.1

theorem char_upper_range :
    ∀ m : Nat, m < 26 →
      'A' ≤ Char.ofNat (65 + m) ∧ Char.ofNat (65 + m) ≤ 'Z' := by
  decide

theorem gen_ident_chars_length (rng : Nat → Nat) (base : Nat) :
    (gen_ident_chars rng base).length = prog_proc_id_len := by
  simp [gen_ident_chars, String.length]

theorem gen_ident_chars_upper (rng : Nat → Nat) (base : Nat) :
    ∀ c ∈ (gen_ident_chars rng base).data, 'A' ≤ c ∧ c ≤ 'Z' := by
  intro c hc
  simp only [gen_ident_chars, List.mem_map, List.mem_range] at hc
  obtain ⟨i, _, rfl⟩ := hc
  have hm : rng (base + i) % 26 < 26 := Nat.mod_lt _ (by norm_num)
  exact char_upper_range (rng (base + i) % 26) hm

/-- C8: prog_module_gen_ident can return an identifier that already names
a procedure of the module.  The NUL terminator is written only after the
retry loop (prog.c:177), so the in-loop collision lookup strcmp-compares
the unterminated buffer — the eight fresh characters plus an indeterminate
ninth byte — against the existing identifiers.  With a module already
containing procedure AAAAAAAA, the all-zero random stream (drawing
AAAAAAAA) and a nonzero garbage ninth byte (junk suffix X), the very
first attempt survives the check unchallenged and the function returns
AAAAAAAA, on which prog_module_proc_by_ident finds the existing
procedure: a duplicate. -/
theorem prog_module_gen_ident_duplicate :
    prog_module_gen_ident ⟨[⟨"AAAAAAAA", []⟩]⟩ (fun _ => 0) "X" 1 =
      some "AAAAAAAA" ∧
    prog_module_proc_by_ident ⟨[⟨"AAAAAAAA", []⟩]⟩ "AAAAAAAA" = some 0 := by
  decide

theorem ebind_ok {α β : Type} (a : α) (f : α → Except Nat β) :
    (Except.ok a >>= f) = f a := rfl

theorem ebind_err {α β : Type} (e : Nat) (f : α → Except Nat β) :
    ((Except.error e : Except Nat α) >>= f) = .error e := rfl

theorem dir_of_to_int (d : dir_t) : dir_of_int (dir_to_int d) = d := by
  cases d <;> rfl

theorem rstack_entry_load_save (mod : prog_module_t) (e : Nat × Nat)
    (rest : List tok) (h : rstack_entry_resolvable mod e = true) :
    ∃ e', rstack_entry_load mod (rstack_entry_save mod e ++ rest) =
      .ok (e', rest) := by
  unfold rstack_entry_resolvable at h
  rw [Bool.and_eq_true] at h
  obtain ⟨hlen, hres⟩ := h
  rw [decide_eq_true_eq] at hlen
  unfold rstack_entry_load rstack_entry_save prog_proc_save_ident
  simp only [List.cons_append, List.nil_append, List.append_assoc]
  rw [show prog_proc_load_ident (tok.ident (prog_ident_of mod e.1) ::
      tok.num (e.2 : Int) :: rest) =
      .ok (prog_ident_of mod e.1, tok.num (e.2 : Int) :: rest) from by
    simp [prog_proc_load_ident, hlen]]
  rw [ebind_ok]
  rw [show tok_read_uint (tok.num (e.2 : Int) :: rest) =
      .ok (e.2, rest) from by simp [tok_read_uint]]
  rw [ebind_ok]
  cases hp : prog_module_proc_by_ident mod (prog_ident_of mod e.1) with
  | none => rw [hp] at hres; simp at hres
  | some p =>
      rw [hp] at hres
      dsimp only at hres ⊢
      cases hpp : mod.procs.get? p with
      | none => rw [hpp] at hres; simp at hres
      | some proc =>
          rw [hpp] at hres
          dsimp only at hres ⊢
          cases hs : prog_proc_stmt_by_index proc e.2 with
          | none => rw [hs] at hres; simp at hres
          | some stmt =>
              exact ⟨(p, e.2), rfl⟩

theorem rstack_entries_load_save (mod : prog_module_t)
    (l : List (Nat × Nat)) (rest : List tok)
    (h : ∀ e ∈ l, rstack_entry_resolvable mod e = true) :
    ∃ l', rstack_entries_load mod l.length
      (rstack_entries_save mod l ++ rest) = .ok (l', rest) := by
  induction l with
  | nil => exact ⟨[], rfl⟩
  | cons e l ih =>
      obtain ⟨e', he⟩ := rstack_entry_load_save mod e
        (rstack_entries_save mod l ++ rest) (h e (List.mem_cons_self e l))
      obtain ⟨l', hl⟩ := ih (fun x hx => h x (List.mem_cons_of_mem e hx))
      refine ⟨e' :: l', ?_⟩
      simp only [List.length_cons, rstack_entries_save, rstack_entries_load,
        List.append_assoc]
      rw [he, ebind_ok, hl, ebind_ok]

theorem rstack_load_save (mod : prog_module_t) (l : List (Nat × Nat))
    (rest : List tok)
    (h : ∀ e ∈ l, rstack_entry_resolvable mod e = true) :
    ∃ l', rstack_load mod (rstack_save mod l ++ rest) = .ok (l', rest) := by
  obtain ⟨l', hl⟩ := rstack_entries_load_save mod l rest h
  refine ⟨l', ?_⟩
  unfold rstack_load rstack_save
  rw [List.cons_append]
  rw [show tok_read_uint (tok.num (l.length : Int) ::
      (rstack_entries_save mod l ++ rest)) =
      .ok (l.length, rstack_entries_save mod l ++ rest) from by
    simp [tok_read_uint]]
  rw [ebind_ok]
  dsimp only
  rw [hl]

/-- C9: robot_save followed by robot_load against the same resolved module
reproduces x, y and the direction exactly, but collapses the error to a
boolean: the saved field is 1 for any nonzero error, which reloads as
errt_hit_wall, so errt_already_tag and errt_no_tag do not survive the
round trip. -/
theorem robot_save_load_roundtrip (mod : prog_module_t) (r : robot_t)
    (rest : List tok)
    (h : ∀ e ∈ r.rstack, rstack_entry_resolvable mod e = true) :
    ∃ r', robot_load mod (robot_save mod r ++ rest) = .ok (r', rest) ∧
      r'.x = r.x ∧ r'.y = r.y ∧ r'.dir = r.dir ∧
      r'.error = (if r.error = errt_none then errt_none else errt_hit_wall) := by
  obtain ⟨l', hl⟩ := rstack_load_save mod r.rstack rest h
  unfold robot_save robot_load
  by_cases herr : r.error = errt_none
  · refine ⟨⟨r.x, r.y, r.dir, none, none, l', errt_none⟩, ?_, rfl, rfl,
      rfl, by simp [herr]⟩
    rw [if_pos herr]
    simp [tok_read_int, tok_read_uint, ebind_ok, errt_limit, hl,
      robot_create, dir_of_to_int, errt_of_nat, List.append_assoc]
  · refine ⟨⟨r.x, r.y, r.dir, none, none, l', errt_hit_wall⟩, ?_, rfl, rfl,
      rfl, by simp [herr]⟩
    rw [if_neg herr]
    simp [tok_read_int, tok_read_uint, ebind_ok, errt_limit, hl,
      robot_create, dir_of_to_int, errt_of_nat, List.append_assoc]

/-- C9 witness: a robot stopped with errt_already_tag and an empty
continuation stack, saved and reloaded against the empty module, comes
back with x, y and direction intact but error errt_hit_wall. -/
theorem robot_save_load_roundtrip_witness :
    ∃ r', robot_load ⟨[]⟩ (robot_save ⟨[]⟩
        ⟨3, 4, dir_west, none, none, [], errt_already_tag⟩ ++ []) =
      .ok (r', []) ∧
      r'.x = 3 ∧ r'.y = 4 ∧ r'.dir = dir_west ∧
      r'.error = (if (errt_already_tag = errt_none) then errt_none
        else errt_hit_wall) :=
  robot_save_load_roundtrip ⟨[]⟩
    ⟨3, 4, dir_west, none, none, [], errt_already_tag⟩ [] (by simp)

theorem progin_of_to_nat (it : prog_intr_type_t) :
    progin_of_nat (progin_to_nat it) = it := by
  cases it <;> rfl

theorem progct_of_to_nat (ct : prog_ctype_t) :
    progct_of_nat (progct_to_nat ct) = ct := by
  cases ct <;> rfl

theorem prog_cond_load_save (c : prog_cond_t) (rest : List tok) :
    prog_cond_load (prog_cond_save c ++ rest) = .ok (c, rest) := by
  obtain ⟨cn, ct⟩ := c
  cases cn <;> cases ct <;> rfl

theorem stmt_fuel_pos (s : prog_stmt_t) : 1 ≤ stmt_fuel s := by
  cases s <;> rw [stmt_fuel.eq_def] <;> dsimp only <;> omega

theorem block_fuel_mem (l : List prog_stmt_t) (s : prog_stmt_t)
    (h : s ∈ l) : 1 + stmt_fuel s ≤ block_fuel l := by
  induction l with
  | nil => simp at h
  | cons a rest ih =>
      rcases List.mem_cons.mp h with h1 | h2
      · rw [h1]
        exact le_trans (le_refl _)
          (by rw [block_fuel]; exact Nat.le_max_left _ _)
      · exact le_trans (ih h2)
          (by rw [block_fuel]; exact Nat.le_max_right _ _)

theorem block_calls_lt_mem (j : Nat) (l : List prog_stmt_t)
    (s : prog_stmt_t) (hs : s ∈ l) (h : block_calls_lt j l = true) :
    stmt_calls_lt j s = true := by
  induction l with
  | nil => simp at hs
  | cons a rest ih =>
      rw [block_calls_lt, Bool.and_eq_true] at h
      rcases List.mem_cons.mp hs with h1 | h2
      · rw [h1]; exact h.1
      · exact ih h2 h.2

theorem proc_list_by_ident_get (l : List prog_proc_t) (i : Nat)
    (p : prog_proc_t) (hnd : (l.map (fun q => q.ident)).Nodup)
    (hget : l.get? i = some p) :
    proc_list_by_ident l p.ident = some i := by
  induction l generalizing i with
  | nil => simp at hget
  | cons q rest ih =>
      cases i with
      | zero =>
          rw [List.get?_cons_zero] at hget
          have hq : q = p := by injection hget
          subst hq
          simp [proc_list_by_ident]
      | succ i =>
          rw [List.get?_cons_succ] at hget
          have hpmem : p ∈ rest := List.get?_mem hget
          have hne : q.ident ≠ p.ident := by
            rw [List.map_cons, List.nodup_cons] at hnd
            intro hcontra
            exact hnd.1 (hcontra ▸ List.mem_map_of_mem (fun q => q.ident) hpmem)
          have hnd' : (rest.map (fun q => q.ident)).Nodup := by
            rw [List.map_cons, List.nodup_cons] at hnd
            exact hnd.2
          rw [proc_list_by_ident, if_neg hne, ih i hnd' hget]
          rfl

theorem proc_by_ident_take (mod : prog_module_t) (j i : Nat)
    (p : prog_proc_t) (hnd : (mod.procs.map (fun q => q.ident)).Nodup)
    (hij : i < j) (hget : mod.procs.get? i = some p) :
    prog_module_proc_by_ident ⟨mod.procs.take j⟩ p.ident = some i := by
  apply proc_list_by_ident_get
  · show ((mod.procs.take j).map (fun q => q.ident)).Nodup
    have hsub : List.Sublist ((mod.procs.take j).map (fun q => q.ident))
        (mod.procs.map (fun q => q.ident)) :=
      List.Sublist.map _ (List.take_sublist j mod.procs)
    exact hnd.sublist hsub
  · show (mod.procs.take j).get? i = some p
    rw [List.get?_take hij]
    exact hget

theorem module_idents_wf_get (mod : prog_module_t) (i : Nat)
    (p : prog_proc_t) (hwf : module_idents_wf mod = true)
    (hget : mod.procs.get? i = some p) :
    p.ident.length = prog_proc_id_len := by
  unfold module_idents_wf at hwf
  rw [List.all_eq_true] at hwf
  simpa using hwf p (List.get?_mem hget)

theorem procs_calls_backward_get (l : List prog_proc_t) (i0 k : Nat)
    (p : prog_proc_t) (h : procs_calls_backward i0 l = true)
    (hget : l.get? k = some p) :
    block_calls_lt (i0 + k) p.body = true := by
  induction l generalizing i0 k with
  | nil => simp at hget
  | cons q rest ih =>
      rw [procs_calls_backward, Bool.and_eq_true] at h
      cases k with
      | zero =>
          rw [List.get?_cons_zero] at hget
          have hq : q = p := by injection hget
          subst hq
          simpa using h.1
      | succ k =>
          rw [List.get?_cons_succ] at hget
          have := ih (i0 + 1) k h.2 hget
          rw [show i0 + (k + 1) = i0 + 1 + k by omega]
          exact this

theorem block_fuel_foldr_mem (l : List prog_proc_t) (p : prog_proc_t)
    (hmem : p ∈ l) :
    block_fuel p.body ≤
      l.foldr (fun q acc => Nat.max (block_fuel q.body) acc) 0 := by
  induction l with
  | nil => simp at hmem
  | cons q rest ih =>
      rw [List.foldr_cons]
      rcases List.mem_cons.mp hmem with h1 | h2
      · rw [h1]; exact Nat.le_max_left _ _
      · exact le_trans (ih h2) (Nat.le_max_right _ _)

theorem module_fuel_get (mod : prog_module_t) (i : Nat) (p : prog_proc_t)
    (hget : mod.procs.get? i = some p) :
    block_fuel p.body ≤ module_fuel mod := by
  unfold module_fuel
  exact block_fuel_foldr_mem mod.procs p (List.get?_mem hget)

theorem epure_ok {α : Type} (a : α) : (pure a : Except Nat α) = .ok a := rfl

theorem read_uint_nat (n : Nat) (ts : List tok) :
    tok_read_uint (tok.num (n : Int) :: ts) = .ok (n, ts) := by
  simp [tok_read_uint]

theorem read_ident_ok (s : String) (ts : List tok)
    (h : s.length = prog_proc_id_len) :
    prog_proc_load_ident (tok.ident s :: ts) = .ok (s, ts) := by
  simp [prog_proc_load_ident, h]

theorem progin_to_nat_le (it : prog_intr_type_t) : progin_to_nat it ≤ 5 := by
  cases it <;> simp [progin_to_nat]

theorem block_fuel_pos (l : List prog_stmt_t) : 1 ≤ block_fuel l := by
  cases l with
  | nil => simp [block_fuel]
  | cons a rest =>
      rw [block_fuel]
      exact le_trans (Nat.le_add_right 1 _) (Nat.le_max_left _ _)

mutual

theorem prog_stmt_load_save (mod : prog_module_t) (j : Nat)
    (s : prog_stmt_t) (fuel : Nat) (rest : List tok)
    (hnd : (mod.procs.map (fun q => q.ident)).Nodup)
    (hwf : module_idents_wf mod = true)
    (hj : j ≤ mod.procs.length)
    (hc : stmt_calls_lt j s = true)
    (hf : stmt_fuel s ≤ fuel) :
    prog_stmt_load ⟨mod.procs.take j⟩ fuel (prog_stmt_save mod s ++ rest) =
      .ok (s, rest) := by
  cases fuel with
  | zero => exact absurd (le_trans (stmt_fuel_pos s) hf) (by omega)
  | succ f =>
      cases s with
      | sintr it =>
          simp only [prog_stmt_save]
          rw [prog_stmt_load.eq_def]
          dsimp only
          simp only [List.cons_append, List.nil_append]
          rw [show tok_read_uint (tok.num 0 :: tok.num (progin_to_nat it : Int)
            :: rest) = .ok (0, tok.num (progin_to_nat it : Int) :: rest)
            from rfl]
          rw [ebind_ok]
          dsimp only
          rw [if_neg (by norm_num), if_pos rfl]
          rw [read_uint_nat, ebind_ok]
          dsimp only
          rw [if_neg (by
            have h1 := progin_to_nat_le it
            have h2 : progin_to_nat progin_pick_up = 5 := rfl
            omega)]
          rw [progin_of_to_nat]
      | scall q =>
          have hq : q < j := by
            simpa [stmt_calls_lt] using hc
          have hql : q < mod.procs.length := lt_of_lt_of_le hq hj
          cases hgq : mod.procs.get? q with
          | none =>
              exact absurd (List.get?_eq_none.mp hgq) (by omega)
          | some p =>
              have hid : prog_ident_of mod q = p.ident := by
                unfold prog_ident_of
                rw [hgq]
              have hplen : p.ident.length = prog_proc_id_len :=
                module_idents_wf_get mod q p hwf hgq
              have hres : prog_module_proc_by_ident ⟨mod.procs.take j⟩
                  p.ident = some q :=
                proc_by_ident_take mod j q p hnd hq hgq
              simp only [prog_stmt_save, prog_proc_save_ident]
              rw [prog_stmt_load.eq_def]
              dsimp only
              simp only [List.cons_append, List.nil_append]
              rw [show tok_read_uint (tok.num 1 ::
                tok.ident (prog_ident_of mod q) :: rest) =
                .ok (1, tok.ident (prog_ident_of mod q) :: rest) from rfl]
              rw [ebind_ok]
              dsimp only
              rw [if_neg (by norm_num), if_neg (by norm_num), if_pos rfl]
              rw [hid, read_ident_ok p.ident rest hplen, ebind_ok]
              dsimp only
              rw [hres]
      | srecurse =>
          simp only [prog_stmt_save]
          rw [prog_stmt_load.eq_def]
          dsimp only
          simp only [List.cons_append, List.nil_append]
          rw [show tok_read_uint (tok.num 4 :: tok.chr 'R' :: rest) =
            .ok (4, tok.chr 'R' :: rest) from rfl]
          rw [ebind_ok]
          dsimp only
          rw [if_neg (by norm_num), if_neg (by norm_num),
            if_neg (by norm_num), if_neg (by norm_num), if_neg (by norm_num)]
          rw [show tok_read_chr (tok.chr 'R' :: rest) = .ok ('R', rest)
            from rfl]
          rw [ebind_ok]
          dsimp only
          rw [if_neg (by simp)]
      | sif c bt bf =>
          cases bf with
          | none =>
              have hcs : block_calls_lt j bt = true := by
                rw [stmt_calls_lt.eq_def] at hc
                dsimp only at hc
                simpa using hc
              have hfs : block_fuel bt ≤ f := by
                rw [stmt_fuel.eq_def] at hf
                dsimp only at hf
                have hmax : Nat.max (block_fuel bt) 0 ≤ f := by omega
                exact (Nat.max_le.mp hmax).1
              simp only [prog_stmt_save]
              rw [prog_stmt_load.eq_def]
              dsimp only
              simp only [List.cons_append, List.nil_append,
                List.append_assoc]
              rw [show tok_read_uint (tok.num 2 :: (prog_cond_save c ++
                (prog_block_save mod bt ++ (tok.num 0 :: rest)))) =
                .ok (2, prog_cond_save c ++ (prog_block_save mod bt ++
                  (tok.num 0 :: rest))) from rfl]
              rw [ebind_ok]
              dsimp only
              rw [if_neg (by norm_num), if_neg (by norm_num),
                if_neg (by norm_num), if_pos rfl]
              rw [prog_cond_load_save, ebind_ok]
              dsimp only
              rw [prog_block_load_save mod j bt f _ hnd hwf hj hcs hfs]
              rw [ebind_ok]
              dsimp only
              rw [show tok_read_uint (tok.num 0 :: rest) = .ok (0, rest)
                from rfl]
              rw [ebind_ok]
              dsimp only
              rw [if_neg (by norm_num)]
          | some b =>
              have hcs : block_calls_lt j bt = true ∧
                  block_calls_lt j b = true := by
                rw [stmt_calls_lt.eq_def] at hc
                dsimp only at hc
                rw [Bool.and_eq_true] at hc
                exact hc
              have hfs : block_fuel bt ≤ f ∧ block_fuel b ≤ f := by
                rw [stmt_fuel.eq_def] at hf
                dsimp only at hf
                have hmax : Nat.max (block_fuel bt) (block_fuel b) ≤ f := by
                  omega
                exact Nat.max_le.mp hmax
              simp only [prog_stmt_save]
              rw [prog_stmt_load.eq_def]
              dsimp only
              simp only [List.cons_append, List.nil_append,
                List.append_assoc]
              rw [show tok_read_uint (tok.num 2 :: (prog_cond_save c ++
                (prog_block_save mod bt ++ (tok.num 1 ::
                  (prog_block_save mod b ++ rest))))) =
                .ok (2, prog_cond_save c ++ (prog_block_save mod bt ++
                  (tok.num 1 :: (prog_block_save mod b ++ rest))))
                from rfl]
              rw [ebind_ok]
              dsimp only
              rw [if_neg (by norm_num), if_neg (by norm_num),
                if_neg (by norm_num), if_pos rfl]
              rw [prog_cond_load_save, ebind_ok]
              dsimp only
              rw [prog_block_load_save mod j bt f _ hnd hwf hj hcs.1 hfs.1]
              rw [ebind_ok]
              dsimp only
              rw [show tok_read_uint (tok.num 1 ::
                (prog_block_save mod b ++ rest)) =
                .ok (1, prog_block_save mod b ++ rest) from rfl]
              rw [ebind_ok]
              dsimp only
              rw [if_pos (by norm_num)]
              rw [prog_block_load_save mod j b f rest hnd hwf hj hcs.2 hfs.2]
              rw [ebind_ok]
      | srepeat repcnt sc body ec =>
          have hcs : block_calls_lt j body = true := by
            rw [stmt_calls_lt.eq_def] at hc
            dsimp only at hc
            exact hc
          have hfs : block_fuel body ≤ f := by
            rw [stmt_fuel.eq_def] at hf
            dsimp only at hf
            omega
          clear hc hf
          rw [prog_stmt_save.eq_def]
          dsimp only
          rw [prog_stmt_load.eq_def]
          dsimp only
          simp only [List.cons_append, List.nil_append, List.append_assoc]
          rw [show tok_read_uint (tok.num 3 :: (tok.num (repcnt : Int) ::
            ((match sc with
              | some c => tok.num 1 :: prog_cond_save c
              | none => [tok.num 0]) ++
             (prog_block_save mod body ++
              ((match ec with
                | some c => tok.num 1 :: prog_cond_save c
                | none => [tok.num 0]) ++ rest))))) =
            .ok (3, tok.num (repcnt : Int) ::
            ((match sc with
              | some c => tok.num 1 :: prog_cond_save c
              | none => [tok.num 0]) ++
             (prog_block_save mod body ++
              ((match ec with
                | some c => tok.num 1 :: prog_cond_save c
                | none => [tok.num 0]) ++ rest)))) from rfl]
          rw [ebind_ok]
          dsimp only
          rw [if_neg (by norm_num), if_neg (by norm_num),
            if_neg (by norm_num), if_neg (by norm_num), if_pos rfl]
          rw [read_uint_nat, ebind_ok]
          dsimp only
          cases sc with
          | none =>
              simp only [List.cons_append, List.nil_append]
              rw [show tok_read_uint (tok.num 0 ::
                (prog_block_save mod body ++
                  ((match ec with
                    | some c => tok.num 1 :: prog_cond_save c
                    | none => [tok.num 0]) ++ rest))) =
                .ok (0, prog_block_save mod body ++
                  ((match ec with
                    | some c => tok.num 1 :: prog_cond_save c
                    | none => [tok.num 0]) ++ rest)) from rfl]
              rw [ebind_ok]
              dsimp only
              rw [if_neg (by norm_num), epure_ok, ebind_ok]
              dsimp only
              rw [prog_block_load_save mod j body f _ hnd hwf hj hcs hfs]
              rw [ebind_ok]
              dsimp only
              cases ec with
              | none =>
                  simp only [List.cons_append, List.nil_append]
                  rw [show tok_read_uint (tok.num 0 :: rest) =
                    .ok (0, rest) from rfl]
                  rw [ebind_ok]
                  dsimp only
                  rw [if_neg (by norm_num), epure_ok, ebind_ok]
              | some c2 =>
                  simp only [List.cons_append, List.nil_append]
                  rw [show tok_read_uint (tok.num 1 ::
                    (prog_cond_save c2 ++ rest)) =
                    .ok (1, prog_cond_save c2 ++ rest) from rfl]
                  rw [ebind_ok]
                  dsimp only
                  rw [if_pos (by norm_num)]
                  rw [prog_cond_load_save, ebind_ok, epure_ok, ebind_ok]
          | some c1 =>
              simp only [List.cons_append, List.nil_append,
                List.append_assoc]
              rw [show tok_read_uint (tok.num 1 :: (prog_cond_save c1 ++
                (prog_block_save mod body ++
                  ((match ec with
                    | some c => tok.num 1 :: prog_cond_save c
                    | none => [tok.num 0]) ++ rest)))) =
                .ok (1, prog_cond_save c1 ++
                (prog_block_save mod body ++
                  ((match ec with
                    | some c => tok.num 1 :: prog_cond_save c
                    | none => [tok.num 0]) ++ rest))) from rfl]
              rw [ebind_ok]
              dsimp only
              rw [if_pos (by norm_num)]
              rw [prog_cond_load_save, ebind_ok, epure_ok, ebind_ok]
              dsimp only
              rw [prog_block_load_save mod j body f _ hnd hwf hj hcs hfs]
              rw [ebind_ok]
              dsimp only
              cases ec with
              | none =>
                  simp only [List.cons_append, List.nil_append]
                  rw [show tok_read_uint (tok.num 0 :: rest) =
                    .ok (0, rest) from rfl]
                  rw [ebind_ok]
                  dsimp only
                  rw [if_neg (by norm_num), epure_ok, ebind_ok]
              | some c2 =>
                  simp only [List.cons_append, List.nil_append]
                  rw [show tok_read_uint (tok.num 1 ::
                    (prog_cond_save c2 ++ rest)) =
                    .ok (1, prog_cond_save c2 ++ rest) from rfl]
                  rw [ebind_ok]
                  dsimp only
                  rw [if_pos (by norm_num)]
                  rw [prog_cond_load_save, ebind_ok, epure_ok, ebind_ok]
termination_by (sizeOf s, 0)

theorem prog_block_load_save (mod : prog_module_t) (j : Nat)
    (l : List prog_stmt_t) (fuel : Nat) (rest : List tok)
    (hnd : (mod.procs.map (fun q => q.ident)).Nodup)
    (hwf : module_idents_wf mod = true)
    (hj : j ≤ mod.procs.length)
    (hc : block_calls_lt j l = true)
    (hf : block_fuel l ≤ fuel) :
    prog_block_load ⟨mod.procs.take j⟩ fuel (prog_block_save mod l ++ rest) =
      .ok (l, rest) := by
  cases fuel with
  | zero => exact absurd (le_trans (block_fuel_pos l) hf) (by omega)
  | succ f =>
      simp only [prog_block_save]
      rw [prog_block_load.eq_def]
      dsimp only
      simp only [List.cons_append]
      rw [read_uint_nat, ebind_ok]
      dsimp only
      exact prog_stmts_load_save mod j l f rest hnd hwf hj hc
        (fun t ht => by
          have h1 := block_fuel_mem l t ht
          omega)
termination_by (sizeOf l, 2)

theorem prog_stmts_load_save (mod : prog_module_t) (j : Nat)
    (l : List prog_stmt_t) (fuel : Nat) (rest : List tok)
    (hnd : (mod.procs.map (fun q => q.ident)).Nodup)
    (hwf : module_idents_wf mod = true)
    (hj : j ≤ mod.procs.length)
    (hc : block_calls_lt j l = true)
    (hf : ∀ t ∈ l, stmt_fuel t ≤ fuel) :
    prog_stmts_load ⟨mod.procs.take j⟩ fuel l.length
      (prog_stmts_save mod l ++ rest) = .ok (l, rest) := by
  cases l with
  | nil =>
      simp only [prog_stmts_save, List.length_nil, List.nil_append]
      rw [prog_stmts_load.eq_def]
  | cons shead stail =>
      have hch : stmt_calls_lt j shead = true :=
        block_calls_lt_mem j (shead :: stail) shead
          (List.mem_cons_self _ _) hc
      have hct : block_calls_lt j stail = true := by
        rw [block_calls_lt, Bool.and_eq_true] at hc
        exact hc.2
      simp only [prog_stmts_save, List.length_cons, List.append_assoc]
      rw [prog_stmts_load.eq_def]
      dsimp only
      rw [prog_stmt_load_save mod j shead fuel _ hnd hwf hj hch
        (hf shead (List.mem_cons_self _ _))]
      rw [ebind_ok]
      dsimp only
      rw [prog_stmts_load_save mod j stail fuel rest hnd hwf hj hct
        (fun t ht => hf t (List.mem_cons_of_mem _ ht))]
      rw [ebind_ok]
termination_by (sizeOf l, 1)

end

theorem prog_proc_load_save (mod : prog_module_t) (j : Nat)
    (proc : prog_proc_t) (fuel : Nat) (rest : List tok)
    (hnd : (mod.procs.map (fun q => q.ident)).Nodup)
    (hwf : module_idents_wf mod = true)
    (hj : j ≤ mod.procs.length)
    (hpl : proc.ident.length = prog_proc_id_len)
    (hc : block_calls_lt j proc.body = true)
    (hf : block_fuel proc.body ≤ fuel) :
    prog_proc_load ⟨mod.procs.take j⟩ fuel (prog_proc_save mod proc ++ rest) =
      .ok (proc, rest) := by
  unfold prog_proc_save prog_proc_save_ident prog_proc_load
  simp only [List.cons_append, List.nil_append, List.append_assoc]
  rw [read_ident_ok proc.ident _ hpl, ebind_ok]
  dsimp only
  rw [prog_block_load_save mod j proc.body fuel rest hnd hwf hj hc hf]
  rw [ebind_ok]

theorem prog_module_load_procs_save (mod : prog_module_t) (fuel : Nat)
    (hnd : (mod.procs.map (fun q => q.ident)).Nodup)
    (hwf : module_idents_wf mod = true)
    (hback : module_calls_backward mod = true)
    (hfuel : module_fuel mod ≤ fuel) :
    ∀ (suf pre : List prog_proc_t) (rest : List tok),
      mod.procs = pre ++ suf →
      prog_module_load_procs fuel suf.length ⟨pre⟩
        (prog_procs_save mod suf ++ rest) = .ok (⟨mod.procs⟩, rest) := by
  intro suf
  induction suf with
  | nil =>
      intro pre rest hsplit
      simp only [prog_procs_save, List.length_nil, List.nil_append]
      rw [prog_module_load_procs]
      rw [show pre = mod.procs from by rw [hsplit, List.append_nil]]
  | cons p suf ih =>
      intro pre rest hsplit
      have hget : mod.procs.get? pre.length = some p := by
        rw [hsplit, List.get?_append_right (le_refl _)]
        simp
      have hpl := module_idents_wf_get mod pre.length p hwf hget
      have hcl : block_calls_lt pre.length p.body = true := by
        have h := procs_calls_backward_get mod.procs 0 pre.length p
          (by simpa [module_calls_backward] using hback) hget
        simpa using h
      have hbf : block_fuel p.body ≤ fuel :=
        le_trans (module_fuel_get mod pre.length p hget) hfuel
      have hj : pre.length ≤ mod.procs.length := by
        rw [hsplit, List.length_append]
        omega
      have htake : mod.procs.take pre.length = pre := by
        rw [hsplit]
        exact List.take_left pre (p :: suf)
      have hpload : prog_proc_load ⟨pre⟩ fuel (prog_proc_save mod p ++
          (prog_procs_save mod suf ++ rest)) =
          .ok (p, prog_procs_save mod suf ++ rest) := by
        rw [show (⟨pre⟩ : prog_module_t) = ⟨mod.procs.take pre.length⟩ from
          by rw [htake]]
        exact prog_proc_load_save mod pre.length p fuel _ hnd hwf hj hpl
          hcl hbf
      simp only [prog_procs_save, List.length_cons, List.append_assoc]
      rw [prog_module_load_procs]
      rw [hpload, ebind_ok]
      dsimp only
      exact ih (pre ++ [p]) rest
        (by rw [hsplit, List.append_assoc]; rfl)

/-- C4, counterexample: a module whose single procedure calls itself.
prog_module_save writes the call's identifier, but prog_stmt_call_load
resolves identifiers against only the procedures appended so far — the
procedure being loaded is appended after its body — so the reload of its
own save fails with EIO instead of reconstructing the module. -/
theorem prog_module_load_rejects_self_call :
    prog_module_load 10
      (prog_module_save ⟨[⟨"AAAAAAAA", [scall 0]⟩]⟩) = .error EIOerr := by
  simp [prog_module_save, prog_procs_save, prog_proc_save,
    prog_proc_save_ident, prog_block_save, prog_stmts_save, prog_stmt_save,
    prog_module_load, prog_module_load_procs, prog_proc_load,
    prog_block_load, prog_stmts_load, prog_stmt_load, prog_proc_load_ident,
    prog_ident_of, tok_read_uint, ebind_ok, ebind_err,
    prog_module_proc_by_ident,
    proc_list_by_ident, prog_proc_id_len,
    show "AAAAAAAA".length = 8 from by decide]

/-- C4, amended: for a module whose procedure identifiers all have the
fixed length 8 and are pairwise distinct (as prog_module_gen_ident
produces them), and in which every Call statement — nested blocks
included — refers to a procedure strictly earlier in the module's
procedure order, prog_module_save followed by prog_module_load (with any
sufficient loader fuel) reconstructs the module exactly: same identifiers
in the same order, same statement sequences, types and nested block
structure, and every Call resolved to the procedure bearing the saved
identifier.  Moreover a Call identifier that does not resolve during load
is a load error (EIO), which Except-propagation turns into failure of the
whole load. -/
theorem prog_module_save_load (mod : prog_module_t) (fuel : Nat)
    (rest : List tok)
    (hnd : (mod.procs.map (fun q => q.ident)).Nodup)
    (hwf : module_idents_wf mod = true)
    (hback : module_calls_backward mod = true)
    (hfuel : module_fuel mod ≤ fuel) :
    prog_module_load fuel (prog_module_save mod ++ rest) = .ok (mod, rest) ∧
    (∀ (mctx : prog_module_t) (id : String) (ts : List tok) (f : Nat),
      id.length = prog_proc_id_len →
      prog_module_proc_by_ident mctx id = none →
      prog_stmt_load mctx (f + 1) (tok.num 1 :: tok.ident id :: ts) =
        .error EIOerr) := by
  constructor
  · unfold prog_module_save prog_module_load
    simp only [List.cons_append]
    rw [read_uint_nat, ebind_ok]
    dsimp only
    exact prog_module_load_procs_save mod fuel hnd hwf hback hfuel
      mod.procs [] rest (by simp)
  · intro mctx id ts f hlen hres
    rw [prog_stmt_load.eq_def]
    dsimp only
    rw [show tok_read_uint (tok.num 1 :: tok.ident id :: ts) =
      .ok (1, tok.ident id :: ts) from rfl, ebind_ok]
    dsimp only
    rw [if_neg (by norm_num), if_neg (by norm_num), if_pos rfl]
    rw [read_ident_ok id ts hlen, ebind_ok]
    dsimp only
    rw [hres]

/-- C4 witness: a two-procedure module exercising every statement variant
(intrinsic, backward calls — also nested inside if and repeat blocks —
if with and without a false branch, repeat with optional conditions, and
recurse) reloads from its save exactly. -/
theorem prog_module_save_load_witness :
    prog_module_load 10 (prog_module_save
      ⟨[⟨"AAAAAAAA", [sintr progin_move]⟩,
        ⟨"BBBBBBBB", [scall 0,
          sif ⟨true, progct_wall⟩ [scall 0] (some [srecurse]),
          srepeat 2 (some ⟨false, progct_tag⟩) [sintr progin_turn_left]
            (some ⟨true, progct_south⟩)]⟩]⟩ ++ []) =
      .ok (⟨[⟨"AAAAAAAA", [sintr progin_move]⟩,
        ⟨"BBBBBBBB", [scall 0,
          sif ⟨true, progct_wall⟩ [scall 0] (some [srecurse]),
          srepeat 2 (some ⟨false, progct_tag⟩) [sintr progin_turn_left]
            (some ⟨true, progct_south⟩)]⟩]⟩, []) :=
  (prog_module_save_load
    ⟨[⟨"AAAAAAAA", [sintr progin_move]⟩,
      ⟨"BBBBBBBB", [scall 0,
        sif ⟨true, progct_wall⟩ [scall 0] (some [srecurse]),
        srepeat 2 (some ⟨false, progct_tag⟩) [sintr progin_turn_left]
          (some ⟨true, progct_south⟩)]⟩]⟩ 10 []
    (by decide)
    (by decide)
    (by simp [module_calls_backward, procs_calls_backward, block_calls_lt,
      stmt_calls_lt])
    (by norm_num [module_fuel, block_fuel, stmt_fuel])).1
